import Mathlib

/-!
Playground cluster bootstrap (components/playground)

A shallow embedding of `components/playground/main.go` and
`components/playground/instance/pd.go`.

Conventions of the embedding

* Go `string` is `String`; Go `int` is `Int`, 64 bits wide: the one sum the
  program computes, the capacity `pdNum+tikvNum+tidbNum`, wraps around
  (`wrapInt64`), and the loop counters stay below the counts.  `fmt.Sprintf`
  with `%s`, `%d` and `%v` on these types is string concatenation with the
  decimal rendering `toString`.
* `*PDInstance` is an address (`Ptr`) into a heap, a list of `PDInstance`
  records; `NewPDInstance` allocates at the end of the heap.  Slices are
  lists; a call of `make` panics as the run time does (`makesliceOK`), and an
  allocation the run time accepts succeeds.
* A `context.Context` is its identity (`Ctx`); `defer cancel()` is the event
  `cancel` at every way out of `bootCluster` after the context is made.
* Every interaction with the outside (environment, file system, processes,
  network, standard output) appends an `Event` to the trace of the `State`.
  What the outside answers is read from a `World`; answers of the operating
  system may depend on the moment of the call, given as the number of events
  so far (`State.clock`).
* A Go `error` result is `Option Err`, `none` being `nil`.
-/

namespace Playground

/-- An error value: one made by `fmt.Errorf` in this program, or one handed
back by a collaborator (operating system, installer, child process). -/
inductive Err where
  | errorf (msg : String)
  | external (code : Nat)
deriving DecidableEq, Repr

/-- An address of a `PDInstance` in the heap. -/
abbrev Ptr := Nat

/-- A value of type `context.Context`, by its identity. -/
abbrev Ctx := Nat

/-- The part of `exec.Cmd` the program sets with `exec.CommandContext`: the
argument vector, the entry appended to the inherited environment, and the
context whose cancellation kills the process. -/
structure Cmd where
  args : List String
  env : String
  ctx : Ctx
deriving DecidableEq, Repr

/-- The struct `PDInstance` of pd.go. -/
structure PDInstance where
  id : Int
  dir : String
  host : String
  peerPort : Int
  clientPort : Int
  endpoints : List Ptr
  cmd : Option Cmd
deriving DecidableEq, Repr

/-- Modelled from the spec: the type `TiKVInstance` (tikv.go is not among the
sources).  A storage instance records the arguments `bootCluster` passes to
`NewTiKVInstance`: working directory, host, ordinal and join targets. -/
structure TiKVInstance where
  id : Int
  dir : String
  host : String
  pds : List Ptr
deriving DecidableEq, Repr

/-- Modelled from the spec: the type `TiDBInstance` (tidb.go is not among the
sources).  A compute instance records the arguments `bootCluster` passes to
`NewTiDBInstance` and the port of its client endpoint. -/
structure TiDBInstance where
  id : Int
  dir : String
  host : String
  port : Int
  pds : List Ptr
deriving DecidableEq, Repr

/-- A value of the interface `instance.Instance`. -/
inductive Instance where
  | pd (p : Ptr)
  | tikv (kv : TiKVInstance)
  | tidb (db : TiDBInstance)
deriving DecidableEq, Repr

/-- One interaction with the outside.  `construct` and `startCall` mark the
call of a constructor `New*Instance` and of the method `Start`; `cancel` is
the call of the cancel function of a context, which kills the processes
started with `exec.CommandContext` on that context that still run. -/
inductive Event where
  | getenv (name : String)
  | installedVersions (profile component : String)
  | run (args : List String)
  | freePort (host : String) (preferred : Int)
  | construct (role : String) (id : Int)
  | println (s : String)
  | startCall (inst : Instance)
  | mkdirAll (dir : String)
  | cmdStart (cmd : Cmd)
  | launch (ctx : Ctx) (inst : Instance)
  | cancel (ctx : Ctx)
  | tryConnect (dsn : String)
  | sleep
  | printf (s : String)
  | httpGet (url : String)
  | writeFile (name content : String)
  | signalNotify
  | wait (inst : Instance)
deriving DecidableEq, Repr

/-- The answers of everything outside the two source files: constants and
helpers of other packages, the operating system, the installer, the child
processes and the network. -/
structure World where
  /-- The constant `localdata.EnvNameHome`. -/
  EnvNameHome : String
  /-- The constant `localdata.EnvNameInstanceDataDir`. -/
  EnvNameInstanceDataDir : String
  /-- The library call `os.Getenv`; a missing variable reads as the empty string. -/
  getenv : String → String
  /-- The method `profile.InstalledVersions`, for a profile root and a component. -/
  InstalledVersions : Nat → String → String → Except Err (List String)
  /-- Result of `exec.Command(args...).Run()`. -/
  run : Nat → List String → Option Err
  /-- The helper `utils.MustGetFreePort`. -/
  MustGetFreePort : Nat → String → Int → Int
  /-- The library call `filepath.Join` of two elements. -/
  filepathJoin : String → String → String
  /-- The helper `compVersion` of package instance. -/
  compVersion : String → String → String
  /-- Result of `os.MkdirAll`. -/
  MkdirAll : Nat → String → Option Err
  /-- Result of `cmd.Start()`. -/
  cmdStart : Nat → Cmd → Option Err
  /-- Port of the client endpoint of a compute instance, by host and ordinal. -/
  tidbPort : Nat → String → Int → Int
  /-- Result of `Start` on a storage or compute instance. -/
  launch : Nat → Instance → Option Err
  /-- Result of `tryConnect`: first the moment the probe began, then the
  number of the attempt within the probe. -/
  tryConnect : Nat → Nat → String → Option Err
  /-- Result of `http.Get`: the status code, or `none` for an error. -/
  httpGet : Nat → String → Option Nat
  /-- Result of `Wait` on an instance. -/
  wait : Nat → Instance → Option Err
  /-- The constant `maxAlloc` of the Go run time: the largest number of bytes
  one allocation may ask for. -/
  maxAlloc : Nat

/-- The heap of coordinator instances and the trace of events so far. -/
structure State where
  heap : List PDInstance
  trace : List Event
deriving DecidableEq, Repr

/-- The moment of the next call: the number of events so far. -/
def State.clock (st : State) : Nat := st.trace.length

/-- Append one event to the trace. -/
def State.emit (st : State) (e : Event) : State :=
  { st with trace := st.trace ++ [e] }

/-- How a function ends: by returning an error value (`none` is `nil`), or by
a run-time panic. -/
inductive Outcome where
  | ret (e : Option Err)
  | panic
deriving DecidableEq, Repr

/-- Modelled from the spec: the method `meta.Version.IsEmpty` (package meta is
not among the sources); "an empty version" is the empty string. -/
def Version.IsEmpty (v : String) : Bool := v == ""

/-- The function `installIfMissing` of main.go; `profile` is the profile root. -/
def installIfMissing (w : World) (profile component version : String) (st : State) :
    Option Err × State :=
  let st1 := st.emit (.installedVersions profile component)
  match w.InstalledVersions st.clock profile component with
  | .error err => (some err, st1)
  | .ok versions =>
    let done : Bool :=
      if versions.length > 0 then
        if Version.IsEmpty version then true
        else versions.any (fun v => v == version)
      else false
    if done then (none, st1)
    else
      let spec := if !Version.IsEmpty version then component ++ ":" ++ version else component
      (w.run st1.clock ["tiup", "install", spec], st1.emit (.run ["tiup", "install", spec]))

/-- The loop of `bootCluster` over the components to install, which returns
at the first error. -/
def installAll (w : World) (profile version : String) :
    List String → State → Option Err × State
  | [], st => (none, st)
  | comp :: rest, st =>
    match installIfMissing w profile comp version st with
    | (some err, st1) => (some err, st1)
    | (none, st1) => installAll w profile version rest st1

/-- Dereference a pointer; every pointer the program holds is valid. -/
def deref (heap : List PDInstance) (p : Ptr) : PDInstance :=
  heap.getD p ⟨0, "", "", 0, 0, [], none⟩

/-- The constructor `NewPDInstance` of pd.go. -/
def NewPDInstance (w : World) (dir host : String) (id : Int) (st : State) : Ptr × State :=
  let clientPort := w.MustGetFreePort st.clock host 2379
  let st1 := st.emit (.freePort host 2379)
  let peerPort := w.MustGetFreePort st1.clock host 2380
  let st2 := st1.emit (.freePort host 2380)
  let inst : PDInstance :=
    { id := id, dir := dir, host := host, peerPort := peerPort, clientPort := clientPort,
      endpoints := [], cmd := none }
  (st2.heap.length, { heap := st2.heap ++ [inst], trace := st2.trace ++ [.construct "pd" id] })

/-- The method `PDInstance.Join` of pd.go: set the field `endpoints`. -/
def PDInstance.Join (heap : List PDInstance) (inst : Ptr) (pds : List Ptr) : List PDInstance :=
  heap.set inst { deref heap inst with endpoints := pds }

/-- The method `PDInstance.Addr` of pd.go. -/
def PDInstance.Addr (inst : PDInstance) : String :=
  inst.host ++ ":" ++ toString inst.clientPort

/-- The identifier `uid` that `PDInstance.Start` formats with `"pd-%d"`. -/
def PDInstance.uid (pd : PDInstance) : String := "pd-" ++ toString pd.id

/-- The entry of join target `pd` in the list `endpoints` that
`PDInstance.Start` builds for `inst` (pd.go, lines 75 and 76). -/
def PDInstance.endpointEntry (inst pd : PDInstance) : String :=
  PDInstance.uid pd ++ "=http://" ++ inst.host ++ ":" ++ toString pd.peerPort

/-- The URL `http://<host>:<peerPort>` that `PDInstance.Start` formats for
the instance itself (pd.go, lines 67 and 68). -/
def PDInstance.peerURL (inst : PDInstance) : String :=
  "http://" ++ inst.host ++ ":" ++ toString inst.peerPort

/-- The URL `http://<host>:<clientPort>` that `PDInstance.Start` formats for
the instance itself (pd.go, lines 69 and 70). -/
def PDInstance.clientURL (inst : PDInstance) : String :=
  "http://" ++ inst.host ++ ":" ++ toString inst.clientPort

/-- The slice literal `args` of `PDInstance.Start` (pd.go, lines 63 to 72). -/
def PDInstance.baseArgs (w : World) (inst : PDInstance) (version : String) : List String :=
  ["tiup", "run", w.compVersion "pd" version, "--",
   "--name=" ++ PDInstance.uid inst,
   "--data-dir=" ++ w.filepathJoin inst.dir "data",
   "--peer-urls=" ++ PDInstance.peerURL inst,
   "--advertise-peer-urls=" ++ PDInstance.peerURL inst,
   "--client-urls=" ++ PDInstance.clientURL inst,
   "--advertise-client-urls=" ++ PDInstance.clientURL inst,
   "--log-file=" ++ w.filepathJoin inst.dir "pd.log"]

/-- The slice `endpoints` of `PDInstance.Start` (pd.go, lines 73 to 77). -/
def PDInstance.endpointList (heap : List PDInstance) (inst : PDInstance) : List String :=
  inst.endpoints.map (fun p => PDInstance.endpointEntry inst (deref heap p))

/-- The argument vector that `PDInstance.Start` builds (pd.go, lines 62 to 80). -/
def PDInstance.startArgs (w : World) (heap : List PDInstance) (inst : PDInstance)
    (version : String) : List String :=
  let args := PDInstance.baseArgs w inst version
  let endpoints := PDInstance.endpointList heap inst
  if endpoints.length > 0 then
    args ++ ["--initial-cluster=" ++ String.intercalate "," endpoints]
  else args

/-- The method `PDInstance.Start` of pd.go; `ctx` is the context handed to
`exec.CommandContext`. -/
def PDInstance.Start (w : World) (ctx : Ctx) (p : Ptr) (version : String) (st : State) :
    Option Err × State :=
  let inst := deref st.heap p
  let st1 := st.emit (.mkdirAll inst.dir)
  match w.MkdirAll st.clock inst.dir with
  | some err => (some err, st1)
  | none =>
    let cmd : Cmd :=
      { args := PDInstance.startArgs w st1.heap inst version,
        env := w.EnvNameInstanceDataDir ++ "=" ++ inst.dir,
        ctx := ctx }
    let st2 : State := { st1 with heap := st1.heap.set p { inst with cmd := some cmd } }
    (w.cmdStart st2.clock cmd, st2.emit (.cmdStart cmd))

/-- Modelled from the spec: the constructor `NewTiKVInstance` (tikv.go is not
among the sources); storage instances allocate no port. -/
def NewTiKVInstance (dir host : String) (id : Int) (pds : List Ptr) (st : State) :
    TiKVInstance × State :=
  ({ id := id, dir := dir, host := host, pds := pds }, st.emit (.construct "tikv" id))

/-- Modelled from the spec: the constructor `NewTiDBInstance` (tidb.go is not
among the sources); the port of the client endpoint is the world's. -/
def NewTiDBInstance (w : World) (dir host : String) (id : Int) (pds : List Ptr) (st : State) :
    TiDBInstance × State :=
  ({ id := id, dir := dir, host := host, port := w.tidbPort st.clock host id, pds := pds },
    st.emit (.construct "tidb" id))

/-- Modelled from the spec: the method `TiDBInstance.Addr` (tidb.go is not
among the sources), the client endpoint `<host>:<port>`. -/
def TiDBInstance.Addr (db : TiDBInstance) : String :=
  db.host ++ ":" ++ toString db.port

/-- Modelled from the spec: the method `Start` of a storage or of a compute
node (tikv.go and tidb.go are not among the sources), one launch of a
process, which succeeds or returns an error. -/
def launchInstance (w : World) (ctx : Ctx) (inst : Instance) (st : State) :
    Option Err × State :=
  (w.launch st.clock inst, st.emit (.launch ctx inst))

/-- The method `Start` of the interface `instance.Instance`, as the launch
loop of `bootCluster` calls it: `PDInstance.Start` for a coordinator. -/
def Instance.Start (w : World) (ctx : Ctx) (version : String) (inst : Instance)
    (st : State) : Option Err × State :=
  let st1 := st.emit (.startCall inst)
  match inst with
  | .pd p => PDInstance.Start w ctx p version st1
  | other => launchInstance w ctx other st1

/-- The method `Wait` of the interface `instance.Instance`; for a coordinator
it is `PDInstance.Wait` of pd.go, the result of `cmd.Wait()`.  Modelled from
the spec for a storage or compute instance: the result of waiting on the
process of the instance. -/
def Instance.Wait (w : World) (inst : Instance) (st : State) : Option Err × State :=
  (w.wait st.clock inst, st.emit (.wait inst))

/-- The topology `bootCluster` builds: the slices `all`, `pds`, `kvs`, `dbs`. -/
structure Topology where
  all : List Instance
  pds : List Ptr
  kvs : List TiKVInstance
  dbs : List TiDBInstance
deriving DecidableEq, Repr

/-- One round of the first loop of `bootCluster` (main.go, lines 154 to 159). -/
def pdStep (w : World) (dataDir host : String) (acc : Topology × State) (i : Nat) :
    Topology × State :=
  let dir := w.filepathJoin dataDir ("pd-" ++ toString (i : Int))
  let r := NewPDInstance w dir host (i : Int) acc.2
  ({ acc.1 with pds := acc.1.pds ++ [r.1], all := acc.1.all ++ [Instance.pd r.1] }, r.2)

/-- The second loop of `bootCluster` (main.go, lines 160 to 162): every
coordinator in `ps` joins `pds`. -/
def joinAll (pds : List Ptr) (ps : List Ptr) (heap : List PDInstance) : List PDInstance :=
  ps.foldl (fun h pd => PDInstance.Join h pd pds) heap

/-- One round of the third loop of `bootCluster` (main.go, lines 164 to 169). -/
def kvStep (w : World) (dataDir host : String) (acc : Topology × State) (i : Nat) :
    Topology × State :=
  let dir := w.filepathJoin dataDir ("tikv-" ++ toString (i : Int))
  let r := NewTiKVInstance dir host (i : Int) acc.1.pds acc.2
  ({ acc.1 with kvs := acc.1.kvs ++ [r.1], all := acc.1.all ++ [Instance.tikv r.1] }, r.2)

/-- One round of the fourth loop of `bootCluster` (main.go, lines 171 to 176). -/
def dbStep (w : World) (dataDir host : String) (acc : Topology × State) (i : Nat) :
    Topology × State :=
  let dir := w.filepathJoin dataDir ("tidb-" ++ toString (i : Int))
  let r := NewTiDBInstance w dir host (i : Int) acc.1.pds acc.2
  ({ acc.1 with dbs := acc.1.dbs ++ [r.1], all := acc.1.all ++ [Instance.tidb r.1] }, r.2)

/-- The four loops of topology construction in `bootCluster` (main.go, lines
154 to 176), from empty slices.  The slices themselves are made before, see
`makeSlices` and `constructTopology`. -/
def buildTopology (w : World) (dataDir host : String) (pdNum tikvNum tidbNum : Int)
    (st : State) : Topology × State :=
  let a0 : Topology × State := ({ all := [], pds := [], kvs := [], dbs := [] }, st)
  let a1 := (List.range pdNum.toNat).foldl (pdStep w dataDir host) a0
  let a2 : Topology × State := (a1.1, { a1.2 with heap := joinAll a1.1.pds a1.1.pds a1.2.heap })
  let a3 := (List.range tikvNum.toNat).foldl (kvStep w dataDir host) a2
  (List.range tidbNum.toNat).foldl (dbStep w dataDir host) a3

/-- A value of Go type `int`, 64 bits wide, after an addition: the sum wraps
around. -/
def wrapInt64 (x : Int) : Int := (x + 2 ^ 63) % 2 ^ 64 - 2 ^ 63

/-- The run-time check of `make([]T, 0, cap)` for elements of `elemSize`
bytes: the call panics (makeslice: cap out of range) when the capacity is
negative, or the size in bytes overflows a machine word or exceeds `maxAlloc`.
An allocation that passes the check succeeds. -/
def makesliceOK (maxAlloc elemSize : Nat) (cap : Int) : Bool :=
  decide (0 ≤ cap ∧ (elemSize : Int) * cap < 2 ^ 64 ∧ (elemSize : Int) * cap ≤ (maxAlloc : Int))

/-- The four calls of `make` in `bootCluster` (main.go, lines 146 to 149):
`all` holds interface values of two words, `pds`, `kvs` and `dbs` hold
pointers of one word, a word being 8 bytes; the capacity of `all` is the sum
of the counts as `int` arithmetic computes it.  The result is `true` when no
call panics. -/
def makeSlices (w : World) (pdNum tikvNum tidbNum : Int) : Bool :=
  makesliceOK w.maxAlloc 16 (wrapInt64 (wrapInt64 (pdNum + tikvNum) + tidbNum)) &&
  makesliceOK w.maxAlloc 8 pdNum &&
  makesliceOK w.maxAlloc 8 tikvNum &&
  makesliceOK w.maxAlloc 8 tidbNum

/-- Topology construction in `bootCluster` (main.go, lines 146 to 176): the
calls of `make`, then the loops; `none` is the panic of a call of `make`,
before any instance is constructed. -/
def constructTopology (w : World) (dataDir host : String) (pdNum tikvNum tidbNum : Int)
    (st : State) : Option (Topology × State) :=
  if makeSlices w pdNum tikvNum tidbNum then
    some (buildTopology w dataDir host pdNum tikvNum tidbNum st)
  else none

/-- The launch loop of `bootCluster` (main.go, lines 180 to 184), which
returns at the first error. -/
def startAll (w : World) (ctx : Ctx) (version : String) :
    List Instance → State → Option Err × State
  | [], st => (none, st)
  | inst :: rest, st =>
    match Instance.Start w ctx version inst st with
    | (some err, st1) => (some err, st1)
    | (none, st1) => startAll w ctx version rest st1

/-- The call `strings.Split(s, sep)` for a separator of one character. -/
def stringsSplit (s : String) (sep : Char) : List String :=
  (s.data.splitOn sep).map String.mk

/-- How a function without result ends: normally, or by a run-time panic. -/
inductive Flow where
  | normal
  | panic
deriving DecidableEq, Repr

/-- The loop of `checkDB` (main.go, lines 99 to 107) from round `i` on, with
`fuel` rounds left; `tryConnect i` is the result of the attempt of round `i`. -/
def checkDBLoop (tryConnect : Nat → String → Option Err) (dbAddr dsn : String) :
    Nat → Nat → State → Flow × State
  | 0, _, st => (Flow.normal, st)
  | fuel + 1, i, st =>
    let st1 := st.emit (.tryConnect dsn)
    match tryConnect i dsn with
    | some _ => checkDBLoop tryConnect dbAddr dsn fuel (i + 1) (st1.emit .sleep)
    | none =>
      match stringsSplit dbAddr ':' with
      | s0 :: s1 :: _ =>
        (Flow.normal, st1.emit
          (.printf ("To connect TiDB: mysql --host " ++ s0 ++ " --port " ++ s1 ++ " -u root\n")))
      | _ => (Flow.panic, st1)

/-- The function `checkDB` of main.go. -/
def checkDB (tryConnect : Nat → String → Option Err) (dbAddr : String) (st : State) :
    Flow × State :=
  checkDBLoop tryConnect dbAddr ("root:@tcp(" ++ dbAddr ++ ")/") 60 0 st

/-- The probe loop of `bootCluster` (main.go, lines 186 to 188). -/
def checkAll (w : World) : List TiDBInstance → State → Flow × State
  | [], st => (Flow.normal, st)
  | db :: rest, st =>
    match checkDB (w.tryConnect st.clock) (TiDBInstance.Addr db) st with
    | (Flow.panic, st1) => (Flow.panic, st1)
    | (Flow.normal, st1) => checkAll w rest st1

/-- The function `hasDashboard` of main.go. -/
def hasDashboard (w : World) (pdAddr : String) (st : State) : Bool × State :=
  let url := "http://" ++ pdAddr ++ "/dashboard"
  let st1 := st.emit (.httpGet url)
  match w.httpGet st.clock url with
  | none => (false, st1)
  | some code => (if code = 200 then true else false, st1)

/-- The content `dumpDSN` joins (main.go, lines 208 to 212). -/
def dsnContent (dbs : List TiDBInstance) : String :=
  String.intercalate "\n" (dbs.map (fun db => "mysql://root@" ++ TiDBInstance.Addr db))

/-- The function `dumpDSN` of main.go; the result of the write is dropped. -/
def dumpDSN (dbs : List TiDBInstance) (st : State) : State :=
  st.emit (.writeFile "dsn" (dsnContent dbs))

/-- The wait loop of `bootCluster` (main.go, lines 199 to 203). -/
def waitAll (w : World) : List Instance → State → Option Err × State
  | [], st => (none, st)
  | inst :: rest, st =>
    match Instance.Wait w inst st with
    | (some err, st1) => (some err, st1)
    | (none, st1) => waitAll w rest st1

/-- The message of the count check of `bootCluster` (main.go, line 125). -/
def countMessage (tidbNum tikvNum pdNum : Int) : String :=
  "all components count must be great than 0 (tidb=" ++ toString tidbNum ++
    ", tikv=" ++ toString tikvNum ++ ", pd=" ++ toString pdNum ++ ")"

/-- What `bootCluster` does from the launch loop on (main.go, lines 178 to
204), on the topology built. -/
def runCluster (w : World) (ctx : Ctx) (version : String) (t : Topology) (st : State) :
    Outcome × State :=
  let st1 := st.emit (.println "Playground Bootstrapping...")
  match startAll w ctx version t.all st1 with
  | (some err, st2) => (Outcome.ret (some err), st2)
  | (none, st2) =>
    match checkAll w t.dbs st2 with
    | (Flow.panic, st3) => (Outcome.panic, st3)
    | (Flow.normal, st3) =>
      match t.pds with
      | [] => (Outcome.panic, st3)
      | pd0 :: _ =>
        let pdAddr := PDInstance.Addr (deref st3.heap pd0)
        let d := hasDashboard w pdAddr st3
        let st4 :=
          if d.1 then d.2.emit (.printf ("To view the dashboard: http://" ++ pdAddr ++ "/dashboard\n"))
          else d.2
        let st5 := dumpDSN t.dbs st4
        let st6 := st5.emit .signalNotify
        match waitAll w t.all st6 with
        | (r, st7) => (Outcome.ret r, st7)

/-- The context `bootCluster` makes with `context.WithCancel` (main.go, line
151). -/
def bootCtx : Ctx := 0

/-- The function `bootCluster` of main.go.  After the context is made every
way out, return or panic, runs the deferred `cancel()` (main.go, line 152).
The goroutine of `setupSignalHandler`, which removes the file on a signal, is
not part of the sequential run. -/
def bootCluster (w : World) (version : String) (pdNum tidbNum tikvNum : Int) (host : String) :
    Outcome × State :=
  let st0 : State := { heap := [], trace := [] }
  if pdNum < 1 ∨ tidbNum < 1 ∨ tikvNum < 1 then
    (Outcome.ret (some (Err.errorf (countMessage tidbNum tikvNum pdNum))), st0)
  else
    let profileRoot := w.getenv w.EnvNameHome
    let st1 := st0.emit (.getenv w.EnvNameHome)
    if profileRoot = "" then
      (Outcome.ret (some (Err.errorf ("cannot read environment variable " ++ w.EnvNameHome))), st1)
    else
      match installAll w profileRoot version ["pd", "tikv", "tidb"] st1 with
      | (some err, st2) => (Outcome.ret (some err), st2)
      | (none, st2) =>
        let dataDir := w.getenv w.EnvNameInstanceDataDir
        let st3 := st2.emit (.getenv w.EnvNameInstanceDataDir)
        if dataDir = "" then
          (Outcome.ret (some (Err.errorf
            ("cannot read environment variable " ++ w.EnvNameInstanceDataDir))), st3)
        else
          match constructTopology w dataDir host pdNum tikvNum tidbNum st3 with
          | none => (Outcome.panic, st3)
          | some b =>
            let r := runCluster w bootCtx version b.1 b.2
            (r.1, r.2.emit (.cancel bootCtx))

/-- The events of `n` failed attempts of `checkDB`: each attempt is followed
by the sleep of one second. -/
def failedAttempts (dsn : String) : Nat → List Event
  | 0 => []
  | n + 1 => Event.tryConnect dsn :: Event.sleep :: failedAttempts dsn n

/-- Number of connection attempts among the events. -/
def attempts (es : List Event) : Nat :=
  es.countP (fun e => match e with | .tryConnect _ => true | _ => false)

/-- Number of lines printed with `fmt.Printf` among the events. -/
def hints (es : List Event) : Nat :=
  es.countP (fun e => match e with | .printf _ => true | _ => false)

/-- The event is the execution of a child process: an install command, or
the start of a cluster node. -/
def Event.isChildProcess : Event → Bool
  | .run _ => true
  | .cmdStart _ => true
  | .launch _ _ => true
  | _ => false

/-- The event belongs to building or launching the cluster nodes: a port
request, a constructor call, a call of `Start`, a directory creation, a
process start. -/
def Event.isNodeEffect : Event → Bool
  | .freePort _ _ => true
  | .construct _ _ => true
  | .startCall _ => true
  | .mkdirAll _ => true
  | .cmdStart _ => true
  | .launch _ _ => true
  | _ => false

/-- The event is one `installIfMissing` makes: a listing of installed
versions, or the command `tiup install <spec>`. -/
def Event.isInstall (e : Event) : Prop :=
  (∃ p c, e = Event.installedVersions p c) ∨ (∃ spec, e = Event.run ["tiup", "install", spec])

/-- The state after the calls of `Start` on the instances of `l`, in order. -/
def launched (w : World) (ctx : Ctx) (version : String) : List Instance → State → State
  | [], st => st
  | inst :: rest, st => launched w ctx version rest (Instance.Start w ctx version inst st).2

/-- The result of `Start` on instance number `j` of `l` (from 0), called in
the state the calls of `Start` on the instances before it have left. -/
def startResult (w : World) (ctx : Ctx) (version : String) (l : List Instance) (st : State)
    (j : Nat) : Option (Option Err) :=
  (l[j]?).map (fun inst =>
    (Instance.Start w ctx version inst (launched w ctx version (l.take j) st)).1)

/-- The fields of a coordinator that are fixed once the topology is built:
all but the process handle `cmd`. -/
def PDInstance.static (x : PDInstance) : PDInstance := { x with cmd := none }

/-- The instances on which `Start` was called, in the order of the calls. -/
def startCalls (es : List Event) : List Instance :=
  es.filterMap (fun e => match e with | .startCall inst => some inst | _ => none)

/-- The processes started with `cmd.Start()`, in the order of the starts. -/
def startedCmds (es : List Event) : List Cmd :=
  es.filterMap (fun e => match e with | .cmdStart cmd => some cmd | _ => none)

/-- The event belongs to the launch loop: a call of `Start` and what it does. -/
def Event.isLaunch : Event → Bool
  | .startCall _ => true
  | .mkdirAll _ => true
  | .cmdStart _ => true
  | .launch _ _ => true
  | _ => false

/-- The event belongs to what `bootCluster` does before the launch loop. -/
def Event.isSetup : Event → Bool
  | .getenv _ => true
  | .installedVersions _ _ => true
  | .run _ => true
  | .freePort _ _ => true
  | .construct _ _ => true
  | .println _ => true
  | _ => false

/-- The event belongs to what `bootCluster` does after the launch loop: a
readiness probe, the write of the file "dsn", the signal handler, a wait. -/
def Event.isAfterLaunch : Event → Bool
  | .tryConnect _ => true
  | .sleep => true
  | .printf _ => true
  | .httpGet _ => true
  | .writeFile _ _ => true
  | .signalNotify => true
  | .wait _ => true
  | _ => false

/-- A sequence of attempts for examples: two failures, then success. -/
def demoAttempts : Nat → String → Option Err :=
  fun j _ => if j < 2 then some (Err.external 1) else none

/-- Two compute instances for examples. -/
def demoDBs : List TiDBInstance :=
  [⟨0, "/d/tidb-0", "127.0.0.1", 4000, [0]⟩, ⟨1, "/d/tidb-1", "127.0.0.1", 4001, [0]⟩]

/-- A world for examples: variables set, the three components installed,
every call succeeds, ports are the preferred ones plus the ordinal. -/
def demoWorld : World where
  EnvNameHome := "TIUP_HOME"
  EnvNameInstanceDataDir := "TIUP_INSTANCE_DATA_DIR"
  getenv := fun n => if n = "TIUP_HOME" then "/h" else if n = "TIUP_INSTANCE_DATA_DIR" then "/d" else ""
  InstalledVersions := fun _ _ _ => Except.ok ["v1"]
  run := fun _ _ => none
  MustGetFreePort := fun t _ p => p + t
  filepathJoin := fun a b => a ++ "/" ++ b
  compVersion := fun c v => if v = "" then c else c ++ ":" ++ v
  MkdirAll := fun _ _ => none
  cmdStart := fun _ _ => none
  tidbPort := fun _ _ i => 4000 + i
  launch := fun _ _ => none
  tryConnect := fun _ _ _ => none
  httpGet := fun _ _ => some 200
  wait := fun _ _ => none
  maxAlloc := 2 ^ 48

/-- A world where the instance-data-root variable is not set and no component
is installed. -/
def noDataDirWorld : World :=
  { demoWorld with
    getenv := fun n => if n = "TIUP_HOME" then "/h" else ""
    InstalledVersions := fun _ _ _ => Except.ok [] }

/-- A world where the start of every storage instance fails. -/
def failingStorageWorld : World :=
  { demoWorld with
    launch := fun _ inst =>
      match inst with
      | .tikv _ => some (Err.external 7)
      | _ => none }

/-- The state in which the launch loop of `bootCluster` begins in the world
`failingStorageWorld`, for one instance of each role. -/
def failingStorageStart : Topology × State :=
  buildTopology failingStorageWorld "/d" "127.0.0.1" 1 1 1
    ⟨[], [Event.getenv "TIUP_HOME", Event.installedVersions "/h" "pd",
      Event.installedVersions "/h" "tikv", Event.installedVersions "/h" "tidb",
      Event.getenv "TIUP_INSTANCE_DATA_DIR"]⟩

/-! ## The trace only grows -/

theorem emit_grows (st : State) (e : Event) : st.trace <+: (st.emit e).trace := by
  simp [State.emit]

theorem installIfMissing_grows (w : World) (profile component version : String) (st : State) :
    st.trace <+: (installIfMissing w profile component version st).2.trace := by
  simp only [installIfMissing]
  split
  · simp [State.emit]
  · split_ifs <;> simp [State.emit, List.append_assoc]

theorem installAll_grows (w : World) (profile version : String) (comps : List String)
    (st : State) : st.trace <+: (installAll w profile version comps st).2.trace := by
  induction comps generalizing st with
  | nil => simp [installAll]
  | cons comp rest ih =>
    have h := installIfMissing_grows w profile comp version st
    unfold installAll
    rcases hr : installIfMissing w profile comp version st with ⟨r, st1⟩
    rw [hr] at h
    cases r with
    | some err => exact h
    | none => exact h.trans (ih st1)

theorem foldl_grows {α : Type} (f : Topology × State → α → Topology × State)
    (hf : ∀ acc a, acc.2.trace <+: (f acc a).2.trace) (l : List α) (acc : Topology × State) :
    acc.2.trace <+: (l.foldl f acc).2.trace := by
  induction l generalizing acc with
  | nil => simp
  | cons a rest ih => exact (hf acc a).trans (ih (f acc a))

theorem buildTopology_grows (w : World) (dataDir host : String) (pdNum tikvNum tidbNum : Int)
    (st : State) :
    st.trace <+: (buildTopology w dataDir host pdNum tikvNum tidbNum st).2.trace := by
  unfold buildTopology
  refine List.IsPrefix.trans ?_ (foldl_grows _ ?_ _ _)
  · refine List.IsPrefix.trans ?_ (foldl_grows _ ?_ _ _)
    · exact foldl_grows (pdStep w dataDir host)
        (fun acc a => by simp [pdStep, NewPDInstance, State.emit, List.append_assoc])
        (List.range pdNum.toNat) ({ all := [], pds := [], kvs := [], dbs := [] }, st)
    · intro acc a
      simp [kvStep, NewTiKVInstance, State.emit]
  · intro acc a
    simp [dbStep, NewTiDBInstance, State.emit]

theorem PDInstance.Start_grows (w : World) (ctx : Ctx) (p : Ptr) (version : String) (st : State) :
    st.trace <+: (PDInstance.Start w ctx p version st).2.trace := by
  simp only [PDInstance.Start]
  split
  · simp [State.emit]
  · simp [State.emit, List.append_assoc]

theorem Instance.StartAny_grows (w : World) (ctx : Ctx) (version : String) (inst : Instance) (st : State) :
    st.trace <+: (Instance.Start w ctx version inst st).2.trace := by
  cases inst with
  | pd p =>
    exact (emit_grows st _).trans (PDInstance.Start_grows w ctx p version _)
  | tikv kv => simp [Instance.Start, launchInstance, State.emit, List.append_assoc]
  | tidb db => simp [Instance.Start, launchInstance, State.emit, List.append_assoc]

theorem startAll_grows (w : World) (ctx : Ctx) (version : String) (l : List Instance) (st : State) :
    st.trace <+: (startAll w ctx version l st).2.trace := by
  induction l generalizing st with
  | nil => simp [startAll]
  | cons inst rest ih =>
    have h := Instance.StartAny_grows w ctx version inst st
    unfold startAll
    rcases hr : Instance.Start w ctx version inst st with ⟨r, st1⟩
    rw [hr] at h
    cases r with
    | some err => exact h
    | none => exact h.trans (ih st1)

theorem checkDBLoop_grows (tc : Nat → String → Option Err) (dbAddr dsn : String)
    (fuel i : Nat) (st : State) :
    st.trace <+: (checkDBLoop tc dbAddr dsn fuel i st).2.trace := by
  induction fuel generalizing i st with
  | zero => simp [checkDBLoop]
  | succ n ih =>
    unfold checkDBLoop
    cases tc i dsn with
    | some err =>
      exact ((emit_grows st _).trans (emit_grows _ _)).trans (ih (i + 1) _)
    | none =>
      simp only []
      split
      · simp [State.emit, List.append_assoc]
      · simp [State.emit]

theorem checkAll_grows (w : World) (dbs : List TiDBInstance) (st : State) :
    st.trace <+: (checkAll w dbs st).2.trace := by
  induction dbs generalizing st with
  | nil => simp [checkAll]
  | cons db rest ih =>
    have h := checkDBLoop_grows (w.tryConnect st.clock) (TiDBInstance.Addr db)
      ("root:@tcp(" ++ TiDBInstance.Addr db ++ ")/") 60 0 st
    unfold checkAll checkDB
    rcases hr : checkDBLoop (w.tryConnect st.clock) (TiDBInstance.Addr db)
      ("root:@tcp(" ++ TiDBInstance.Addr db ++ ")/") 60 0 st with ⟨r, st1⟩
    rw [hr] at h
    cases r with
    | panic => exact h
    | normal => exact h.trans (ih st1)

theorem waitAll_grows (w : World) (l : List Instance) (st : State) :
    st.trace <+: (waitAll w l st).2.trace := by
  induction l generalizing st with
  | nil => simp [waitAll]
  | cons inst rest ih =>
    unfold waitAll
    cases hw : w.wait st.clock inst with
    | some err => simp [Instance.Wait, hw, State.emit]
    | none =>
      simp only [Instance.Wait, hw]
      exact (emit_grows st _).trans (ih _)

theorem hasDashboard_snd (w : World) (pdAddr : String) (st : State) :
    (hasDashboard w pdAddr st).2 = st.emit (.httpGet ("http://" ++ pdAddr ++ "/dashboard")) := by
  simp only [hasDashboard]
  split <;> rfl

theorem runCluster_grows (w : World) (ctx : Ctx) (version : String) (t : Topology) (st : State) :
    st.trace <+: (runCluster w ctx version t st).2.trace := by
  have h1 := (emit_grows st (.println "Playground Bootstrapping...")).trans
    (startAll_grows w ctx version t.all _)
  simp only [runCluster]
  split
  · rename_i err st2 heq
    rw [heq] at h1
    exact h1
  · rename_i st2 heq
    rw [heq] at h1
    have h2 := h1.trans (checkAll_grows w t.dbs st2)
    split
    · rename_i st3 hc
      rw [hc] at h2
      exact h2
    · rename_i st3 hc
      rw [hc] at h2
      split
      · exact h2
      · refine h2.trans (List.IsPrefix.trans ?_ (waitAll_grows w t.all _))
        split_ifs <;> simp [hasDashboard_snd, dumpDSN, State.emit, List.append_assoc]

/-! ## The topology `bootCluster` builds -/

theorem deref_append_left (heap : List PDInstance) (x : PDInstance) (i : Nat)
    (h : i < heap.length) : deref (heap ++ [x]) i = deref heap i := by
  simp [deref, List.getD_eq_getElem?_getD, List.getElem?_append_left h]

theorem deref_append_length (heap : List PDInstance) (x : PDInstance) :
    deref (heap ++ [x]) heap.length = x := by
  simp [deref, List.getD_eq_getElem?_getD]

theorem deref_set (heap : List PDInstance) (p q : Nat) (x : PDInstance) :
    deref (heap.set p x) q = if p = q ∧ q < heap.length then x else deref heap q := by
  simp only [deref, List.getD_eq_getElem?_getD, List.getElem?_set]
  by_cases hpq : p = q
  · subst hpq
    by_cases hl : p < heap.length
    · simp [hl]
    · simp [hl, List.getElem?_eq_none (Nat.le_of_not_lt hl)]
  · simp [hpq]

/-- The first loop of `bootCluster`, run for `n` rounds from the empty heap:
the pointers, in order, and the fields of the instances. -/
theorem pdLoop_spec (w : World) (dataDir host : String) (tr : List Event) (n : Nat) :
    let r := (List.range n).foldl (pdStep w dataDir host)
      (({ all := [], pds := [], kvs := [], dbs := [] } : Topology), (⟨[], tr⟩ : State))
    r.1.pds = List.range n ∧ r.1.all = (List.range n).map Instance.pd ∧
    r.1.kvs = [] ∧ r.1.dbs = [] ∧ r.2.heap.length = n ∧
    ∀ i, i < n → (deref r.2.heap i).id = (i : Int) ∧ (deref r.2.heap i).host = host ∧
      (deref r.2.heap i).endpoints = [] ∧ (deref r.2.heap i).cmd = none := by
  induction n with
  | zero => simp
  | succ n ih =>
    simp only [List.range_succ, List.foldl_append, List.foldl_cons, List.foldl_nil]
    obtain ⟨h1, h2, h3, h4, h5, h6⟩ := ih
    refine ⟨?_, ?_, ?_, ?_, ?_, ?_⟩
    · simp [pdStep, NewPDInstance, State.emit, h1, h5]
    · simp [pdStep, NewPDInstance, State.emit, h2, h5]
    · simp [pdStep, h3]
    · simp [pdStep, h4]
    · simp [pdStep, NewPDInstance, State.emit, h5]
    · intro i hi
      simp only [pdStep, NewPDInstance, State.emit]
      by_cases hin : i < n
      · rw [deref_append_left _ _ _ (by omega)]
        exact h6 i hin
      · have hi' : i = n := by omega
        subst hi'
        have := deref_append_length
          ((List.range i).foldl (pdStep w dataDir host)
            (({ all := [], pds := [], kvs := [], dbs := [] } : Topology),
              (⟨[], tr⟩ : State))).2.heap
        rw [h5] at this
        simp [this]

/-- The second loop of `bootCluster`: the heap keeps its length, the
instances named in `ps` get `pds` as endpoints, nothing else changes. -/
theorem joinAll_spec (pds : List Ptr) (ps : List Ptr) (heap : List PDInstance) :
    (joinAll pds ps heap).length = heap.length ∧
    ∀ q, deref (joinAll pds ps heap) q =
      if q ∈ ps ∧ q < heap.length then { deref heap q with endpoints := pds }
      else deref heap q := by
  induction ps generalizing heap with
  | nil => simp [joinAll]
  | cons p rest ih =>
    have hrec := ih (PDInstance.Join heap p pds)
    have hlen : (PDInstance.Join heap p pds).length = heap.length := by
      simp [PDInstance.Join]
    simp only [joinAll, List.foldl_cons] at hrec ⊢
    refine ⟨by rw [hrec.1, hlen], fun q => ?_⟩
    rw [hrec.2 q, hlen]
    simp only [PDInstance.Join, deref_set, List.mem_cons]
    by_cases hq : q < heap.length
    · by_cases hr : q ∈ rest
      · by_cases hp : p = q <;> simp [hq, hr, hp]
      · by_cases hp : p = q
        · simp [hq, hr, hp]
        · have hp' : ¬ q = p := fun h => hp h.symm
          simp [hq, hr, hp, hp']
    · simp [hq]

/-- The third loop of `bootCluster`, run for `m` rounds. -/
theorem kvLoop_spec (w : World) (dataDir host : String) (acc : Topology × State) (m : Nat) :
    let r := (List.range m).foldl (kvStep w dataDir host) acc
    r.1.pds = acc.1.pds ∧ r.2.heap = acc.2.heap ∧ r.1.dbs = acc.1.dbs ∧
    r.1.kvs = acc.1.kvs ++ (List.range m).map (fun i : Nat =>
      (⟨(i : Int), w.filepathJoin dataDir ("tikv-" ++ toString (i : Int)), host, acc.1.pds⟩ :
        TiKVInstance)) ∧
    r.1.all = acc.1.all ++ (List.range m).map (fun i : Nat => Instance.tikv
      ⟨(i : Int), w.filepathJoin dataDir ("tikv-" ++ toString (i : Int)), host, acc.1.pds⟩) := by
  induction m with
  | zero => simp
  | succ m ih =>
    simp only [List.range_succ, List.foldl_append, List.foldl_cons, List.foldl_nil]
    obtain ⟨h1, h2, h3, h4, h5⟩ := ih
    refine ⟨?_, ?_, ?_, ?_, ?_⟩
    · simp [kvStep, h1]
    · simp [kvStep, NewTiKVInstance, State.emit, h2]
    · simp [kvStep, h3]
    · simp [kvStep, NewTiKVInstance, h4, h1]
    · simp [kvStep, NewTiKVInstance, h5, h1]

/-- The fourth loop of `bootCluster`, run for `m` rounds. -/
theorem dbLoop_spec (w : World) (dataDir host : String) (acc : Topology × State) (m : Nat) :
    let r := (List.range m).foldl (dbStep w dataDir host) acc
    r.1.pds = acc.1.pds ∧ r.2.heap = acc.2.heap ∧ r.1.kvs = acc.1.kvs ∧
    ∃ news : List TiDBInstance, r.1.dbs = acc.1.dbs ++ news ∧
      r.1.all = acc.1.all ++ news.map Instance.tidb ∧
      news.map (fun db => db.id) = (List.range m).map (fun i : Nat => (i : Int)) ∧
      ∀ db ∈ news, db.pds = acc.1.pds ∧ db.host = host := by
  induction m with
  | zero => simp
  | succ m ih =>
    simp only [List.range_succ, List.foldl_append, List.foldl_cons, List.foldl_nil]
    obtain ⟨h1, h2, h3, news, h4, h5, h6, h7⟩ := ih
    refine ⟨?_, ?_, ?_, news ++ [(NewTiDBInstance w
      (w.filepathJoin dataDir ("tidb-" ++ toString (m : Int))) host (m : Int) acc.1.pds
      ((List.range m).foldl (dbStep w dataDir host) acc).2).1], ?_, ?_, ?_, ?_⟩
    · simp [dbStep, h1]
    · simp [dbStep, NewTiDBInstance, State.emit, h2]
    · simp [dbStep, h3]
    · simp [dbStep, NewTiDBInstance, h4, h1]
    · simp [dbStep, NewTiDBInstance, h5, h1]
    · simp [NewTiDBInstance, h6]
    · intro db hdb
      rcases List.mem_append.mp hdb with hdb | hdb
      · exact h7 db hdb
      · simp only [List.mem_singleton] at hdb
        subst hdb
        simp [NewTiDBInstance]

/-- What `buildTopology` returns, from the empty heap. -/
theorem buildTopology_spec (w : World) (dataDir host : String) (pdNum tikvNum tidbNum : Int)
    (tr : List Event) :
    let r := buildTopology w dataDir host pdNum tikvNum tidbNum ⟨[], tr⟩
    r.1.pds = List.range pdNum.toNat ∧ r.2.heap.length = pdNum.toNat ∧
    (∀ i, i < pdNum.toNat → (deref r.2.heap i).id = (i : Int) ∧ (deref r.2.heap i).host = host ∧
      (deref r.2.heap i).endpoints = List.range pdNum.toNat) ∧
    r.1.kvs.map (fun kv => kv.id) = (List.range tikvNum.toNat).map (fun i : Nat => (i : Int)) ∧
    (∀ kv ∈ r.1.kvs, kv.pds = List.range pdNum.toNat ∧ kv.host = host) ∧
    r.1.dbs.map (fun db => db.id) = (List.range tidbNum.toNat).map (fun i : Nat => (i : Int)) ∧
    (∀ db ∈ r.1.dbs, db.pds = List.range pdNum.toNat ∧ db.host = host) ∧
    r.1.all = r.1.pds.map Instance.pd ++ r.1.kvs.map Instance.tikv ++
      r.1.dbs.map Instance.tidb := by
  intro r
  obtain ⟨p1, p2, p3, p4, p5, p6⟩ := pdLoop_spec w dataDir host tr pdNum.toNat
  have hj := joinAll_spec (List.range pdNum.toNat) (List.range pdNum.toNat)
    ((List.range pdNum.toNat).foldl (pdStep w dataDir host)
      (({ all := [], pds := [], kvs := [], dbs := [] } : Topology), (⟨[], tr⟩ : State))).2.heap
  rw [p5] at hj
  obtain ⟨k1, k2, k3, k4, k5⟩ := kvLoop_spec w dataDir host
    (((List.range pdNum.toNat).foldl (pdStep w dataDir host)
      (({ all := [], pds := [], kvs := [], dbs := [] } : Topology), (⟨[], tr⟩ : State))).1,
     { ((List.range pdNum.toNat).foldl (pdStep w dataDir host)
      (({ all := [], pds := [], kvs := [], dbs := [] } : Topology), (⟨[], tr⟩ : State))).2 with
       heap := joinAll (List.range pdNum.toNat) (List.range pdNum.toNat)
        ((List.range pdNum.toNat).foldl (pdStep w dataDir host)
          (({ all := [], pds := [], kvs := [], dbs := [] } : Topology),
            (⟨[], tr⟩ : State))).2.heap }) tikvNum.toNat
  obtain ⟨d1, d2, d3, news, d4, d5, d6, d7⟩ := dbLoop_spec w dataDir host
    ((List.range tikvNum.toNat).foldl (kvStep w dataDir host)
    (((List.range pdNum.toNat).foldl (pdStep w dataDir host)
      (({ all := [], pds := [], kvs := [], dbs := [] } : Topology), (⟨[], tr⟩ : State))).1,
     { ((List.range pdNum.toNat).foldl (pdStep w dataDir host)
      (({ all := [], pds := [], kvs := [], dbs := [] } : Topology), (⟨[], tr⟩ : State))).2 with
       heap := joinAll (List.range pdNum.toNat) (List.range pdNum.toNat)
        ((List.range pdNum.toNat).foldl (pdStep w dataDir host)
          (({ all := [], pds := [], kvs := [], dbs := [] } : Topology),
            (⟨[], tr⟩ : State))).2.heap })) tidbNum.toNat
  simp only [p1, p2, p3, p4] at k1 k2 k3 k4 k5 d1 d2 d3 d4 d5 d7
  simp only [k1, k2, k3, k4, k5, List.nil_append] at d1 d2 d3 d4 d5 d7
  have hr : r = (List.range tidbNum.toNat).foldl (dbStep w dataDir host)
    ((List.range tikvNum.toNat).foldl (kvStep w dataDir host)
    (((List.range pdNum.toNat).foldl (pdStep w dataDir host)
      (({ all := [], pds := [], kvs := [], dbs := [] } : Topology), (⟨[], tr⟩ : State))).1,
     { ((List.range pdNum.toNat).foldl (pdStep w dataDir host)
      (({ all := [], pds := [], kvs := [], dbs := [] } : Topology), (⟨[], tr⟩ : State))).2 with
       heap := joinAll (List.range pdNum.toNat) (List.range pdNum.toNat)
        ((List.range pdNum.toNat).foldl (pdStep w dataDir host)
          (({ all := [], pds := [], kvs := [], dbs := [] } : Topology),
            (⟨[], tr⟩ : State))).2.heap })) := by
    simp only [r, buildTopology, p1]
  rw [← hr] at d1 d2 d3 d4 d5
  refine ⟨d1, by rw [d2, hj.1], ?_, ?_, ?_, ?_, ?_, ?_⟩
  · intro i hi
    rw [d2, hj.2 i]
    have := p6 i hi
    simp [hi, this.1, this.2.1]
  · rw [d3]
    simp [List.map_map, Function.comp_def]
  · intro kv hkv
    rw [d3] at hkv
    obtain ⟨i, _, rfl⟩ := List.mem_map.mp hkv
    exact ⟨rfl, rfl⟩
  · rw [d4, d6]
  · intro db hdb
    rw [d4] at hdb
    exact d7 db hdb
  · rw [d5, d1, d3, d4]
    simp [List.map_map, Function.comp_def]

/-- The list `endpoints` that `PDInstance.Start` builds for coordinator `i` of
the topology: one entry per coordinator, in the order of the ordinals. -/
theorem endpointList_topology (w : World) (dataDir host : String)
    (pdNum tikvNum tidbNum : Int) (tr : List Event) (i : Nat) (hi : i < pdNum.toNat) :
    PDInstance.endpointList (buildTopology w dataDir host pdNum tikvNum tidbNum ⟨[], tr⟩).2.heap
      (deref (buildTopology w dataDir host pdNum tikvNum tidbNum ⟨[], tr⟩).2.heap i) =
    (List.range pdNum.toNat).map (fun k : Nat => "pd-" ++ toString (k : Int) ++ "=http://" ++ host ++
      ":" ++ toString
        (deref (buildTopology w dataDir host pdNum tikvNum tidbNum ⟨[], tr⟩).2.heap k).peerPort) := by
  obtain ⟨_, _, h3, _⟩ := buildTopology_spec w dataDir host pdNum tikvNum tidbNum tr
  unfold PDInstance.endpointList
  rw [(h3 i hi).2.2]
  apply List.map_congr_left
  intro k hk
  have hk' : k < pdNum.toNat := List.mem_range.mp hk
  simp only [PDInstance.endpointEntry, PDInstance.uid, (h3 k hk').1, (h3 i hi).2.1]

/-! ## Launching changes no field but `cmd` -/

theorem PDInstance.Start_static (w : World) (ctx : Ctx) (p : Ptr) (version : String) (st : State)
    (q : Nat) :
    PDInstance.static (deref (PDInstance.Start w ctx p version st).2.heap q) =
      PDInstance.static (deref st.heap q) := by
  simp only [PDInstance.Start]
  split
  · rfl
  · simp only [State.emit, deref_set]
    split_ifs with h
    · rw [← h.1]
      rfl
    · rfl

theorem Instance.StartAny_static (w : World) (ctx : Ctx) (version : String) (inst : Instance) (st : State)
    (q : Nat) :
    PDInstance.static (deref (Instance.Start w ctx version inst st).2.heap q) =
      PDInstance.static (deref st.heap q) := by
  cases inst with
  | pd p => exact PDInstance.Start_static w ctx p version _ q
  | tikv kv => rfl
  | tidb db => rfl

theorem launched_static (w : World) (ctx : Ctx) (version : String) (l : List Instance) (st : State)
    (q : Nat) :
    PDInstance.static (deref (launched w ctx version l st).heap q) =
      PDInstance.static (deref st.heap q) := by
  induction l generalizing st with
  | nil => rfl
  | cons inst rest ih =>
    simp only [launched]
    rw [ih, Instance.StartAny_static]

/-- The argument vector of `PDInstance.Start` depends on the heap only
through the fields other than `cmd`. -/
theorem startArgs_static (w : World) (version : String) (h1 h2 : List PDInstance)
    (hs : ∀ q, PDInstance.static (deref h1 q) = PDInstance.static (deref h2 q)) (i : Nat) :
    PDInstance.startArgs w h1 (deref h1 i) version =
      PDInstance.startArgs w h2 (deref h2 i) version ∧
    PDInstance.baseArgs w (deref h1 i) version = PDInstance.baseArgs w (deref h2 i) version ∧
    PDInstance.endpointList h1 (deref h1 i) = PDInstance.endpointList h2 (deref h2 i) ∧
    PDInstance.uid (deref h1 i) = PDInstance.uid (deref h2 i) ∧
    PDInstance.peerURL (deref h1 i) = PDInstance.peerURL (deref h2 i) := by
  have hid : ∀ q, (deref h1 q).id = (deref h2 q).id := fun q => by
    have h := congrArg PDInstance.id (hs q)
    exact h
  have hdir : ∀ q, (deref h1 q).dir = (deref h2 q).dir := fun q => by
    have h := congrArg PDInstance.dir (hs q)
    exact h
  have hhost : ∀ q, (deref h1 q).host = (deref h2 q).host := fun q => by
    have h := congrArg PDInstance.host (hs q)
    exact h
  have hpp : ∀ q, (deref h1 q).peerPort = (deref h2 q).peerPort := fun q => by
    have h := congrArg PDInstance.peerPort (hs q)
    exact h
  have hcp : ∀ q, (deref h1 q).clientPort = (deref h2 q).clientPort := fun q => by
    have h := congrArg PDInstance.clientPort (hs q)
    exact h
  have hep : ∀ q, (deref h1 q).endpoints = (deref h2 q).endpoints := fun q => by
    have h := congrArg PDInstance.endpoints (hs q)
    exact h
  have hb : PDInstance.baseArgs w (deref h1 i) version =
      PDInstance.baseArgs w (deref h2 i) version := by
    simp only [PDInstance.baseArgs, PDInstance.uid, PDInstance.peerURL, PDInstance.clientURL,
      hid i, hdir i, hhost i, hpp i, hcp i]
  have he : PDInstance.endpointList h1 (deref h1 i) =
      PDInstance.endpointList h2 (deref h2 i) := by
    simp only [PDInstance.endpointList, PDInstance.endpointEntry, PDInstance.uid, hep i, hhost i,
      hid, hpp]
  refine ⟨?_, hb, he, ?_, ?_⟩
  · simp only [PDInstance.startArgs, hb, he]
  · simp only [PDInstance.uid, hid i]
  · simp only [PDInstance.peerURL, hhost i, hpp i]

/-! ## The count check of `bootCluster` -/

/-- C1: if one of the three counts is below 1, `bootCluster` returns the error
of the count check and the run has no effect at all: the trace of events is
empty (no variable read, no install command, no constructor call, no
directory, no process) and the heap is empty.  If all three counts are at
least 1 the run does not stop at the count check: it goes on to read the
profile-root variable, its first event. -/
theorem bootCluster_count_check (w : World) (version host : String)
    (pdNum tidbNum tikvNum : Int) :
    ((pdNum < 1 ∨ tidbNum < 1 ∨ tikvNum < 1) →
      bootCluster w version pdNum tidbNum tikvNum host =
        (Outcome.ret (some (Err.errorf (countMessage tidbNum tikvNum pdNum))),
          { heap := [], trace := [] })) ∧
    ((1 ≤ pdNum ∧ 1 ≤ tidbNum ∧ 1 ≤ tikvNum) →
      (bootCluster w version pdNum tidbNum tikvNum host).2.trace.head? =
        some (Event.getenv w.EnvNameHome)) := by
  constructor
  · intro h
    simp [bootCluster, h]
  · rintro ⟨h1, h2, h3⟩
    have hc : ¬ (pdNum < 1 ∨ tidbNum < 1 ∨ tikvNum < 1) := by omega
    have key : ∀ r : Outcome × State, [Event.getenv w.EnvNameHome] <+: r.2.trace →
        r.2.trace.head? = some (Event.getenv w.EnvNameHome) := by
      rintro r ⟨t, ht⟩
      simp [← ht]
    apply key
    unfold bootCluster
    rw [if_neg hc]
    simp only []
    split
    · simp [State.emit]
    · have hi := installAll_grows w (w.getenv w.EnvNameHome) version ["pd", "tikv", "tidb"]
        (State.emit { heap := [], trace := [] } (.getenv w.EnvNameHome))
      rcases hr : installAll w (w.getenv w.EnvNameHome) version ["pd", "tikv", "tidb"]
        (State.emit { heap := [], trace := [] } (.getenv w.EnvNameHome)) with ⟨r, st2⟩
      rw [hr] at hi
      have hi2 : [Event.getenv w.EnvNameHome] <+: st2.trace := by
        simpa [State.emit] using hi
      cases r with
      | some err => exact hi2
      | none =>
        simp only []
        split
        · exact hi2.trans (emit_grows _ _)
        · simp only [constructTopology]
          cases makeSlices w pdNum tikvNum tidbNum with
          | false => exact hi2.trans (emit_grows _ _)
          | true =>
            exact ((hi2.trans (emit_grows _ _)).trans
              ((buildTopology_grows _ _ _ _ _ _ _).trans (runCluster_grows _ _ _ _ _))).trans
              (emit_grows _ _)

/-- C1, at the counts (0, 1, 1) and (1, 1, 1). -/
theorem bootCluster_count_check_witness :
    ((0 : Int) < 1 ∨ (1 : Int) < 1 ∨ (1 : Int) < 1) ∧
    bootCluster demoWorld "" 0 1 1 "127.0.0.1" =
      (Outcome.ret (some (Err.errorf (countMessage 1 1 0))), { heap := [], trace := [] }) ∧
    ((1 : Int) ≤ 1 ∧ (1 : Int) ≤ 1 ∧ (1 : Int) ≤ 1) ∧
    (bootCluster demoWorld "" 1 1 1 "127.0.0.1").2.trace.head? =
      some (Event.getenv demoWorld.EnvNameHome) :=
  ⟨by decide,
   (bootCluster_count_check demoWorld "" "127.0.0.1" 0 1 1).1 (by decide),
   by decide,
   (bootCluster_count_check demoWorld "" "127.0.0.1" 1 1 1).2 (by decide)⟩

/-! ## `installIfMissing` -/

/-- The two ways `installIfMissing` ends when the listing succeeds. -/
theorem installIfMissing_cases (w : World) (profile component version : String) (st : State)
    (versions : List String)
    (hl : w.InstalledVersions st.clock profile component = Except.ok versions) :
    ((versions ≠ [] ∧ (version = "" ∨ version ∈ versions)) →
      installIfMissing w profile component version st =
        (none, st.emit (.installedVersions profile component))) ∧
    (¬ (versions ≠ [] ∧ (version = "" ∨ version ∈ versions)) →
      installIfMissing w profile component version st =
        (w.run (st.emit (.installedVersions profile component)).clock
            ["tiup", "install", if version = "" then component else component ++ ":" ++ version],
          (st.emit (.installedVersions profile component)).emit
            (.run ["tiup", "install",
              if version = "" then component else component ++ ":" ++ version]))) ∧
    (version ≠ "" → version ∉ versions →
      installIfMissing w profile component version st =
        (w.run (st.emit (.installedVersions profile component)).clock
            ["tiup", "install", component ++ ":" ++ version],
          (st.emit (.installedVersions profile component)).emit
            (.run ["tiup", "install", component ++ ":" ++ version]))) := by
  have hlen : versions.length > 0 ↔ versions ≠ [] := by
    cases versions <;> simp
  refine ⟨?_, ?_, ?_⟩
  · rintro ⟨h1, h2⟩
    simp only [installIfMissing, hl]
    rcases h2 with h2 | h2
    · simp [hlen, h1, h2, Version.IsEmpty]
    · simp [hlen, h1, h2]
  · intro h
    simp only [installIfMissing, hl]
    by_cases h1 : versions = []
    · by_cases hv : version = "" <;> simp [h1, hv, Version.IsEmpty]
    · have h2 : ¬ (version = "" ∨ version ∈ versions) := fun h2 => h ⟨h1, h2⟩
      push_neg at h2
      simp [hlen, h1, h2.1, h2.2, Version.IsEmpty]
  · intro hv hn
    simp only [installIfMissing, hl]
    by_cases h1 : versions = []
    · simp [h1, hv, Version.IsEmpty]
    · simp [hlen, h1, hv, hn, Version.IsEmpty]

/-- C7: when listing the installed versions succeeds, `installIfMissing`
skips the installation and returns nil exactly when the list is non-empty and
the version is empty or equal, as a string, to an installed version; in every
other case it runs `tiup install` with spec `<component>` for the empty
version and `<component>:<version>` otherwise, and returns the result of that
command.  In particular an explicit version that is not in the list is
installed, whatever else is installed. -/
theorem installIfMissing_spec (w : World) (profile component version : String) (st : State)
    (versions : List String)
    (hl : w.InstalledVersions st.clock profile component = Except.ok versions) :
    ((versions ≠ [] ∧ (version = "" ∨ version ∈ versions)) →
      installIfMissing w profile component version st =
        (none, st.emit (.installedVersions profile component))) ∧
    (¬ (versions ≠ [] ∧ (version = "" ∨ version ∈ versions)) →
      installIfMissing w profile component version st =
        (w.run (st.emit (.installedVersions profile component)).clock
            ["tiup", "install", if version = "" then component else component ++ ":" ++ version],
          (st.emit (.installedVersions profile component)).emit
            (.run ["tiup", "install",
              if version = "" then component else component ++ ":" ++ version]))) ∧
    (version ≠ "" → version ∉ versions →
      installIfMissing w profile component version st =
        (w.run (st.emit (.installedVersions profile component)).clock
            ["tiup", "install", component ++ ":" ++ version],
          (st.emit (.installedVersions profile component)).emit
            (.run ["tiup", "install", component ++ ":" ++ version]))) :=
  installIfMissing_cases w profile component version st versions hl

/-- C7, where version v1 is installed and v2 is requested. -/
theorem installIfMissing_spec_witness :
    demoWorld.InstalledVersions (State.clock ⟨[], []⟩) "/h" "pd" = Except.ok ["v1"] ∧
    ("v2" ≠ "" → "v2" ∉ ["v1"] →
      installIfMissing demoWorld "/h" "pd" "v2" ⟨[], []⟩ =
        (none, ⟨[], [.installedVersions "/h" "pd", .run ["tiup", "install", "pd:v2"]]⟩)) :=
  ⟨rfl, (installIfMissing_spec demoWorld "/h" "pd" "v2" ⟨[], []⟩ ["v1"] rfl).2.2⟩

/-! ## `checkDB` -/

theorem checkDBLoop_spec (tc : Nat → String → Option Err) (dbAddr dsn s0 s1 : String)
    (rest : List String) (hform : stringsSplit dbAddr ':' = s0 :: s1 :: rest)
    (fuel : Nat) : ∀ (i : Nat) (st : State) (k : Nat),
    (∀ j, j < k → tc (i + j) dsn ≠ none) →
    (k < fuel → tc (i + k) dsn = none →
      checkDBLoop tc dbAddr dsn fuel i st =
        (Flow.normal, ⟨st.heap, st.trace ++ (failedAttempts dsn k ++
          [Event.tryConnect dsn,
           Event.printf ("To connect TiDB: mysql --host " ++ s0 ++ " --port " ++ s1 ++
             " -u root\n")])⟩)) ∧
    (fuel ≤ k →
      checkDBLoop tc dbAddr dsn fuel i st =
        (Flow.normal, ⟨st.heap, st.trace ++ failedAttempts dsn fuel⟩)) := by
  induction fuel with
  | zero =>
    intro i st k _
    exact ⟨fun h => absurd h (Nat.not_lt_zero k), fun _ => by simp [checkDBLoop, failedAttempts]⟩
  | succ n ih =>
    intro i st k hfail
    cases k with
    | zero =>
      refine ⟨fun _ hs => ?_, fun h => absurd h (by omega)⟩
      have hs' : tc i dsn = none := by simpa using hs
      simp [checkDBLoop, hs', hform, failedAttempts, State.emit]
    | succ k =>
      have h0 : tc i dsn ≠ none := by simpa using hfail 0 (Nat.succ_pos k)
      obtain ⟨err, herr⟩ := Option.ne_none_iff_exists'.mp h0
      have hfail' : ∀ j, j < k → tc (i + 1 + j) dsn ≠ none := by
        intro j hj
        have := hfail (j + 1) (by omega)
        rwa [show i + (j + 1) = i + 1 + j by omega] at this
      have hrec := ih (i + 1) ((st.emit (.tryConnect dsn)).emit .sleep) k hfail'
      refine ⟨fun hk hs => ?_, fun hk => ?_⟩
      · have hs' : tc (i + 1 + k) dsn = none := by
          rwa [show i + (k + 1) = i + 1 + k by omega] at hs
        simp only [checkDBLoop, herr]
        rw [hrec.1 (by omega) hs']
        simp [State.emit, failedAttempts]
      · simp only [checkDBLoop, herr]
        rw [hrec.2 (by omega)]
        simp [State.emit, failedAttempts]

theorem attempts_failedAttempts (dsn : String) (n : Nat) :
    attempts (failedAttempts dsn n) = n ∧ hints (failedAttempts dsn n) = 0 := by
  induction n with
  | zero => simp [failedAttempts, attempts, hints]
  | succ n ih =>
    simp only [attempts, hints] at ih
    simp [failedAttempts, attempts, hints, ih.1, ih.2]

/-- C6: let the attempts of `tryConnect` answer by an arbitrary sequence `tc`
and let the first `k` attempts (numbered from 0) fail, for an address that
splits at ':' into fields `s0`, `s1`, ....  If attempt number `k` succeeds and
`k < 60`, `checkDB` returns normally after exactly `k + 1` attempts, each
failed one followed by a sleep, and prints the connection hint exactly once,
as the last event.  If `60 ≤ k`, that is all of the first 60 attempts fail,
`checkDB` returns normally after exactly 60 attempts and prints nothing.  So
the number of attempts is the minimum of 60 and the 1-based index of the first
success. -/
theorem checkDB_attempts (tc : Nat → String → Option Err) (dbAddr s0 s1 : String)
    (rest : List String) (st : State) (k : Nat)
    (hform : stringsSplit dbAddr ':' = s0 :: s1 :: rest)
    (hfail : ∀ j, j < k → tc j ("root:@tcp(" ++ dbAddr ++ ")/") ≠ none) :
    (k < 60 → tc k ("root:@tcp(" ++ dbAddr ++ ")/") = none →
      ∃ es, checkDB tc dbAddr st = (Flow.normal, ⟨st.heap, st.trace ++ es⟩) ∧
        es = failedAttempts ("root:@tcp(" ++ dbAddr ++ ")/") k ++
          [Event.tryConnect ("root:@tcp(" ++ dbAddr ++ ")/"),
           Event.printf ("To connect TiDB: mysql --host " ++ s0 ++ " --port " ++ s1 ++
             " -u root\n")] ∧
        attempts es = min 60 (k + 1) ∧ hints es = 1) ∧
    (60 ≤ k →
      ∃ es, checkDB tc dbAddr st = (Flow.normal, ⟨st.heap, st.trace ++ es⟩) ∧
        es = failedAttempts ("root:@tcp(" ++ dbAddr ++ ")/") 60 ∧
        attempts es = 60 ∧ hints es = 0) := by
  have hfail' : ∀ j, j < k → tc (0 + j) ("root:@tcp(" ++ dbAddr ++ ")/") ≠ none := by
    intro j hj
    simpa using hfail j hj
  have h := checkDBLoop_spec tc dbAddr ("root:@tcp(" ++ dbAddr ++ ")/") s0 s1 rest hform 60 0 st k
    hfail'
  have hc := attempts_failedAttempts ("root:@tcp(" ++ dbAddr ++ ")/")
  refine ⟨fun hk hs => ⟨_, h.1 hk (by simpa using hs), rfl, ?_, ?_⟩,
    fun hk => ⟨_, h.2 hk, rfl, (hc 60).1, (hc 60).2⟩⟩
  · have h1 := (hc k).1
    simp only [attempts] at h1 ⊢
    rw [List.countP_append, h1]
    simp
    omega
  · have h1 := (hc k).2
    simp only [hints] at h1 ⊢
    rw [List.countP_append, h1]
    simp

/-- C6, where attempts 0 and 1 fail and attempt 2 succeeds: 3 attempts, one hint. -/
theorem checkDB_attempts_witness :
    stringsSplit "127.0.0.1:4000" ':' = ["127.0.0.1", "4000"] ∧
    (∀ j, j < 2 → demoAttempts j ("root:@tcp(" ++ "127.0.0.1:4000" ++ ")/") ≠ none) ∧
    (∃ es, checkDB demoAttempts "127.0.0.1:4000" ⟨[], []⟩ = (Flow.normal, ⟨[], [] ++ es⟩) ∧
      es = failedAttempts ("root:@tcp(" ++ "127.0.0.1:4000" ++ ")/") 2 ++
        [Event.tryConnect ("root:@tcp(" ++ "127.0.0.1:4000" ++ ")/"),
         Event.printf ("To connect TiDB: mysql --host " ++ "127.0.0.1" ++ " --port " ++ "4000" ++
           " -u root\n")] ∧
      attempts es = min 60 (2 + 1) ∧ hints es = 1) :=
  ⟨by decide, by decide,
   (checkDB_attempts demoAttempts "127.0.0.1:4000" "127.0.0.1" "4000" [] ⟨[], []⟩ 2
      (by decide) (by decide)).1 (by decide) (by decide)⟩

/-! ## `dumpDSN` -/

theorem intercalateGo_data (s : String) (as : List String) (acc : String) :
    (String.intercalate.go acc s as).data =
      acc.data ++ (as.map (fun a => s.data ++ a.data)).flatten := by
  induction as generalizing acc with
  | nil => simp [String.intercalate.go]
  | cons a rest ih => simp [String.intercalate.go, ih, List.append_assoc]

theorem intercalate_data (c : Char) (l : List String) :
    (String.intercalate (String.singleton c) l).data = [c].intercalate (l.map String.data) := by
  cases l with
  | nil => rfl
  | cons a rest =>
    simp only [String.intercalate, intercalateGo_data]
    induction rest generalizing a with
    | nil => simp [List.intercalate]
    | cons b rest ih =>
      have := ih b
      simp [List.intercalate, List.intersperse] at this ⊢
      simp [this, String.singleton]

theorem stringsSplit_intercalate (c : Char) (l : List String) (hne : l ≠ [])
    (hc : ∀ s ∈ l, c ∉ s.data) :
    stringsSplit (String.intercalate (String.singleton c) l) c = l := by
  unfold stringsSplit
  rw [intercalate_data, List.splitOn_intercalate]
  · simp [List.map_map, Function.comp_def]
  · intro x hx
    obtain ⟨s, hs, rfl⟩ := List.mem_map.mp hx
    exact hc s hs
  · simpa using hne

/-- C5: for a non-empty list of compute instances whose addresses contain no
newline, `dumpDSN` writes to the file "dsn" a content whose fields between
newlines are exactly the strings "mysql://root@" followed by `Addr()`, one
for each instance and in the order of the instances: no trailing newline, no
further line. -/
theorem dumpDSN_lines (dbs : List TiDBInstance) (st : State) (hne : dbs ≠ [])
    (hnl : ∀ db ∈ dbs, '\n' ∉ (TiDBInstance.Addr db).data) :
    dumpDSN dbs st = st.emit (.writeFile "dsn" (dsnContent dbs)) ∧
    stringsSplit (dsnContent dbs) '\n' =
      dbs.map (fun db => "mysql://root@" ++ TiDBInstance.Addr db) ∧
    (stringsSplit (dsnContent dbs) '\n').length = dbs.length := by
  have hs : stringsSplit (dsnContent dbs) '\n' =
      dbs.map (fun db => "mysql://root@" ++ TiDBInstance.Addr db) := by
    have e : "\n" = String.singleton '\n' := by decide
    unfold dsnContent
    rw [e]
    apply stringsSplit_intercalate
    · simpa using hne
    · intro s hs
      obtain ⟨db, hdb, rfl⟩ := List.mem_map.mp hs
      have h1 := hnl db hdb
      have h2 : '\n' ∉ "mysql://root@".data := by decide
      simp only [String.data_append, List.mem_append, not_or]
      exact ⟨h2, h1⟩
  refine ⟨rfl, hs, ?_⟩
  rw [hs, List.length_map]

/-- C5, for two compute instances. -/
theorem dumpDSN_lines_witness :
    demoDBs ≠ [] ∧ (∀ db ∈ demoDBs, '\n' ∉ (TiDBInstance.Addr db).data) ∧
    stringsSplit (dsnContent demoDBs) '\n' =
      ["mysql://root@127.0.0.1:4000", "mysql://root@127.0.0.1:4001"] :=
  ⟨by decide, by decide,
   (dumpDSN_lines demoDBs ⟨[], []⟩ (by decide) (by decide)).2.1.trans (by decide)⟩

/-! ## Topology and the argument vector of a coordinator -/

/-- C4, refuted: at the counts (2^63 - 1, 1, 1), all at least 1, the capacity
`pdNum+tikvNum+tidbNum` of the first `make` wraps to a negative `int`, the
call panics and `bootCluster` ends before any instance is constructed. -/
theorem construction_panics_at_max_int :
    (1 : Int) ≤ 9223372036854775807 ∧
    wrapInt64 (wrapInt64 (9223372036854775807 + 1) + 1) = -9223372036854775807 ∧
    constructTopology demoWorld "/d" "127.0.0.1" 9223372036854775807 1 1
      ⟨[], [Event.getenv "TIUP_HOME", Event.installedVersions "/h" "pd",
        Event.installedVersions "/h" "tikv", Event.installedVersions "/h" "tidb",
        Event.getenv "TIUP_INSTANCE_DATA_DIR"]⟩ = none ∧
    bootCluster demoWorld "" 9223372036854775807 1 1 "127.0.0.1" =
      (Outcome.panic,
        ⟨[], [Event.getenv "TIUP_HOME", Event.installedVersions "/h" "pd",
          Event.installedVersions "/h" "tikv", Event.installedVersions "/h" "tidb",
          Event.getenv "TIUP_INSTANCE_DATA_DIR"]⟩) := by
  decide

/-- C4, amended: for counts of at least 1 for which the four calls of `make`
(main.go, lines 146 to 149) do not panic, topology construction in
`bootCluster` succeeds and yields one coordinator list `pds` of length
`pdNum`, of distinct instances whose ordinals are 0, ..., pdNum-1 in this
order; the endpoints of every coordinator are that list, every storage and
every compute instance has that list as join targets, there are `tikvNum`
storage and `tidbNum` compute instances, and `all` has
`pdNum + tikvNum + tidbNum` members. -/
theorem buildTopology_membership (w : World) (dataDir host : String)
    (pdNum tikvNum tidbNum : Int) (tr : List Event)
    (hpd : 1 ≤ pdNum) (hkv : 1 ≤ tikvNum) (hdb : 1 ≤ tidbNum)
    (hm : makeSlices w pdNum tikvNum tidbNum = true) :
    ∃ r, constructTopology w dataDir host pdNum tikvNum tidbNum ⟨[], tr⟩ = some r ∧
    (r.1.pds.length : Int) = pdNum ∧ r.1.pds.Nodup ∧
    r.1.pds.map (fun p => (deref r.2.heap p).id) =
      (List.range pdNum.toNat).map (fun i : Nat => (i : Int)) ∧
    (∀ p ∈ r.1.pds, (deref r.2.heap p).endpoints = r.1.pds) ∧
    (r.1.kvs.length : Int) = tikvNum ∧ (∀ kv ∈ r.1.kvs, kv.pds = r.1.pds) ∧
    (r.1.dbs.length : Int) = tidbNum ∧ (∀ db ∈ r.1.dbs, db.pds = r.1.pds) ∧
    (r.1.all.length : Int) = pdNum + tikvNum + tidbNum := by
  refine ⟨buildTopology w dataDir host pdNum tikvNum tidbNum ⟨[], tr⟩,
    by simp [constructTopology, hm], ?_⟩
  obtain ⟨h1, _, h3, h4, h5, h6, h7, h8⟩ :=
    buildTopology_spec w dataDir host pdNum tikvNum tidbNum tr
  have lkv : (buildTopology w dataDir host pdNum tikvNum tidbNum ⟨[], tr⟩).1.kvs.length =
      tikvNum.toNat := by
    have := congrArg List.length h4
    simpa using this
  have ldb : (buildTopology w dataDir host pdNum tikvNum tidbNum ⟨[], tr⟩).1.dbs.length =
      tidbNum.toNat := by
    have := congrArg List.length h6
    simpa using this
  refine ⟨?_, ?_, ?_, ?_, ?_, ?_, ?_, ?_, ?_⟩
  · rw [h1, List.length_range]
    omega
  · rw [h1]
    exact List.nodup_range _
  · rw [h1]
    apply List.map_congr_left
    intro p hp
    exact (h3 p (List.mem_range.mp hp)).1
  · intro p hp
    rw [h1] at hp ⊢
    exact (h3 p (List.mem_range.mp hp)).2.2
  · rw [lkv]
    omega
  · intro kv hk
    rw [h1]
    exact (h5 kv hk).1
  · rw [ldb]
    omega
  · intro db hd
    rw [h1]
    exact (h7 db hd).1
  · rw [h8]
    simp only [List.length_append, List.length_map, lkv, ldb, h1, List.length_range]
    omega

/-- The calls of `make` do not panic when the counts are at least 1 and the
slice `all`, of `pdNum + tikvNum + tidbNum` elements of 16 bytes, is within
an allocation limit below 2^63. -/
theorem makeSlices_of_bound (w : World) (pdNum tikvNum tidbNum : Int)
    (hpd : 1 ≤ pdNum) (hkv : 1 ≤ tikvNum) (hdb : 1 ≤ tidbNum)
    (hb : 16 * (pdNum + tikvNum + tidbNum) ≤ (w.maxAlloc : Int))
    (hmax : (w.maxAlloc : Int) < 9223372036854775808) :
    makeSlices w pdNum tikvNum tidbNum = true := by
  have e1 : wrapInt64 (pdNum + tikvNum) = pdNum + tikvNum := by
    unfold wrapInt64
    norm_num
    omega
  have e2 : wrapInt64 (pdNum + tikvNum + tidbNum) = pdNum + tikvNum + tidbNum := by
    unfold wrapInt64
    norm_num
    omega
  simp only [makeSlices, makesliceOK, e1, e2, Bool.and_eq_true, decide_eq_true_eq]
  norm_num
  omega

/-- C4, amended, for 2 coordinators, 1 storage and 1 compute instance. -/
theorem buildTopology_membership_witness :
    ((1 : Int) ≤ 2 ∧ (1 : Int) ≤ 1 ∧ (1 : Int) ≤ 1) ∧ makeSlices demoWorld 2 1 1 = true ∧
    (∃ r, constructTopology demoWorld "/d" "127.0.0.1" 2 1 1 ⟨[], []⟩ = some r ∧
    (r.1.pds.length : Int) = 2 ∧ r.1.pds.Nodup ∧
    r.1.pds.map (fun p => (deref r.2.heap p).id) =
      (List.range (2 : Int).toNat).map (fun i : Nat => (i : Int)) ∧
    (∀ p ∈ r.1.pds, (deref r.2.heap p).endpoints = r.1.pds) ∧
    (r.1.kvs.length : Int) = 1 ∧ (∀ kv ∈ r.1.kvs, kv.pds = r.1.pds) ∧
    (r.1.dbs.length : Int) = 1 ∧ (∀ db ∈ r.1.dbs, db.pds = r.1.pds) ∧
    (r.1.all.length : Int) = 2 + 1 + 1) :=
  ⟨by decide, by decide,
   buildTopology_membership demoWorld "/d" "127.0.0.1" 2 1 1 [] (by decide) (by decide)
     (by decide) (by decide)⟩

/-- C3: for `pdNum = N ≥ 2` and every coordinator `i` of the topology built,
the argument vector `PDInstance.Start` builds, whatever instances `l` the
launch loop has started before, is the fixed arguments followed by one flag
`--initial-cluster=` whose value is the comma-join of exactly N entries, the
k-th being `pd-<k>=http://<host>:<peerPort of coordinator k>` for
k = 0, ..., N-1.  The value does not depend on `i`: it is the same for all
coordinators and includes the entry of the instance itself. -/
theorem initial_cluster_flag (w : World) (dataDir host version : String)
    (pdNum tikvNum tidbNum : Int) (tr : List Event) (hN : 2 ≤ pdNum)
    (i : Nat) (hi : (i : Int) < pdNum) :
    let r := buildTopology w dataDir host pdNum tikvNum tidbNum ⟨[], tr⟩
    let entries := (List.range pdNum.toNat).map (fun k : Nat =>
      "pd-" ++ toString (k : Int) ++ "=http://" ++ host ++ ":" ++
        toString (deref r.2.heap k).peerPort)
    i ∈ r.1.pds ∧ (entries.length : Int) = pdNum ∧
    ∀ l : List Instance,
      PDInstance.startArgs w (launched w bootCtx version l (r.2.emit (Event.println "Playground Bootstrapping..."))).heap
        (deref (launched w bootCtx version l (r.2.emit (Event.println "Playground Bootstrapping..."))).heap i) version =
      PDInstance.baseArgs w (deref r.2.heap i) version ++
        ["--initial-cluster=" ++ String.intercalate "," entries] := by
  intro r entries
  have hi' : i < pdNum.toNat := by omega
  obtain ⟨h1, _⟩ := buildTopology_spec w dataDir host pdNum tikvNum tidbNum tr
  have he := endpointList_topology w dataDir host pdNum tikvNum tidbNum tr i hi'
  have hlen : entries.length = pdNum.toNat := by simp [entries]
  refine ⟨by rw [h1]; exact List.mem_range.mpr hi', by rw [hlen]; omega, ?_⟩
  intro l
  have hs := startArgs_static w version (launched w bootCtx version l (r.2.emit (Event.println "Playground Bootstrapping..."))).heap r.2.heap
    (fun q => launched_static w bootCtx version l (r.2.emit (Event.println "Playground Bootstrapping...")) q) i
  rw [hs.1]
  simp only [PDInstance.startArgs]
  rw [he]
  have hpos : ((List.range pdNum.toNat).map (fun k : Nat => "pd-" ++ toString (k : Int) ++
      "=http://" ++ host ++ ":" ++ toString (deref r.2.heap k).peerPort)).length > 0 := by
    rw [List.length_map, List.length_range]
    omega
  rw [if_pos hpos]

/-- C3, for coordinator 1 of 2, after coordinator 0 has been started. -/
theorem initial_cluster_flag_witness :
    (2 : Int) ≤ 2 ∧ ((1 : Nat) : Int) < 2 ∧
    PDInstance.startArgs demoWorld
        (launched demoWorld bootCtx "" [Instance.pd 0]
          ((buildTopology demoWorld "/d" "127.0.0.1" 2 1 1 ⟨[], []⟩).2.emit (Event.println "Playground Bootstrapping..."))).heap
        (deref (launched demoWorld bootCtx "" [Instance.pd 0]
          ((buildTopology demoWorld "/d" "127.0.0.1" 2 1 1 ⟨[], []⟩).2.emit (Event.println "Playground Bootstrapping..."))).heap 1) "" =
      PDInstance.baseArgs demoWorld
        (deref (buildTopology demoWorld "/d" "127.0.0.1" 2 1 1 ⟨[], []⟩).2.heap 1) "" ++
        ["--initial-cluster=pd-0=http://127.0.0.1:2381,pd-1=http://127.0.0.1:2384"] :=
  ⟨by decide, by decide,
   ((initial_cluster_flag demoWorld "/d" "127.0.0.1" "" 2 1 1 [] (by decide) 1
      (by decide)).2.2 [Instance.pd 0]).trans (by decide)⟩

/-- C2, refuted: with one coordinator, the process `bootCluster` starts for it
is given a non-empty `--initial-cluster` list, its own entry. -/
theorem single_coordinator_initial_cluster_nonempty :
    Event.cmdStart
      ⟨["tiup", "run", "pd", "--", "--name=pd-0", "--data-dir=/d/pd-0/data",
        "--peer-urls=http://127.0.0.1:2386", "--advertise-peer-urls=http://127.0.0.1:2386",
        "--client-urls=http://127.0.0.1:2384", "--advertise-client-urls=http://127.0.0.1:2384",
        "--log-file=/d/pd-0/pd.log", "--initial-cluster=pd-0=http://127.0.0.1:2386"],
       "TIUP_INSTANCE_DATA_DIR=/d/pd-0", bootCtx⟩ ∈
      (bootCluster demoWorld "" 1 1 1 "127.0.0.1").2.trace := by
  decide

/-- The flag `--initial-cluster` is left out exactly when the list of
endpoints of the instance is empty. -/
theorem startArgs_eq_baseArgs_iff (w : World) (version : String) (heap : List PDInstance)
    (inst : PDInstance) :
    PDInstance.startArgs w heap inst version = PDInstance.baseArgs w inst version ↔
      inst.endpoints = [] := by
  constructor
  · intro h
    by_contra hne
    have hpos : (PDInstance.endpointList heap inst).length > 0 := by
      simp only [PDInstance.endpointList, List.length_map]
      exact List.length_pos.mpr hne
    simp only [PDInstance.startArgs, if_pos hpos] at h
    have hl := congrArg List.length h
    simp at hl
  · intro hnil
    simp [PDInstance.startArgs, PDInstance.endpointList, hnil]

/-- C2, amended: with `pdNum = 1` the argument vector `PDInstance.Start`
builds for the sole coordinator, whatever instances `l` the launch loop has
started before, is the fixed arguments followed by the flag
`--initial-cluster=pd-0=http://<host>:<peerPort>`, a list of exactly one
entry, the coordinator's own.  For any instance the flag is left out if and
only if its list of endpoints is empty; the sole coordinator is not such an
instance. -/
theorem single_coordinator_initial_cluster (w : World) (dataDir host version : String)
    (tikvNum tidbNum : Int) (tr : List Event) :
    let r := buildTopology w dataDir host 1 tikvNum tidbNum ⟨[], tr⟩
    r.1.pds = [0] ∧
    PDInstance.endpointList r.2.heap (deref r.2.heap 0) =
      ["pd-0=http://" ++ host ++ ":" ++ toString (deref r.2.heap 0).peerPort] ∧
    (∀ l : List Instance,
      PDInstance.startArgs w (launched w bootCtx version l (r.2.emit (Event.println "Playground Bootstrapping..."))).heap
        (deref (launched w bootCtx version l (r.2.emit (Event.println "Playground Bootstrapping..."))).heap 0) version =
      PDInstance.baseArgs w (deref r.2.heap 0) version ++
        ["--initial-cluster=pd-0=http://" ++ host ++ ":" ++
          toString (deref r.2.heap 0).peerPort]) ∧
    (∀ (heap : List PDInstance) (inst : PDInstance),
      PDInstance.startArgs w heap inst version = PDInstance.baseArgs w inst version ↔
        inst.endpoints = []) ∧
    (deref r.2.heap 0).endpoints = [0] ∧
    PDInstance.startArgs w r.2.heap (deref r.2.heap 0) version ≠
      PDInstance.baseArgs w (deref r.2.heap 0) version := by
  intro r
  obtain ⟨h1, _, h3, _⟩ := buildTopology_spec w dataDir host 1 tikvNum tidbNum tr
  have he := endpointList_topology w dataDir host 1 tikvNum tidbNum tr 0 (by decide)
  have hep := (h3 0 (by decide)).2.2
  have e1 : (1 : Int).toNat = 1 := rfl
  have e2 : "pd-" ++ toString ((0 : Nat) : Int) ++ "=http://" = "pd-0=http://" := by decide
  rw [e1] at h1 he hep
  simp only [List.range_succ, List.range_zero, List.nil_append, List.map_cons, List.map_nil,
    e2] at h1 he hep
  refine ⟨h1, he, ?_, startArgs_eq_baseArgs_iff w version, hep, ?_⟩
  · intro l
    have hs := startArgs_static w version (launched w bootCtx version l (r.2.emit (Event.println "Playground Bootstrapping..."))).heap
      r.2.heap (fun q => launched_static w bootCtx version l (r.2.emit (Event.println "Playground Bootstrapping...")) q) 0
    rw [hs.1]
    simp only [PDInstance.startArgs]
    rw [he]
    have e3 : "--initial-cluster=" ++ "pd-0=http://" = "--initial-cluster=pd-0=http://" := by
      decide
    simp [String.intercalate, String.intercalate.go, String.append_assoc]
    rw [← String.append_assoc, e3]
  · intro h
    have := (startArgs_eq_baseArgs_iff w version r.2.heap (deref r.2.heap 0)).mp h
    rw [hep] at this
    exact absurd this (by decide)

/-- C2, amended, for the sole coordinator of the topology of one instance of
each role: the vector handed to the process ends with the flag. -/
theorem single_coordinator_initial_cluster_witness :
    PDInstance.startArgs demoWorld
        (launched demoWorld bootCtx "" []
          ((buildTopology demoWorld "/d" "127.0.0.1" 1 1 1 ⟨[], []⟩).2.emit (Event.println "Playground Bootstrapping..."))).heap
        (deref (launched demoWorld bootCtx "" []
          ((buildTopology demoWorld "/d" "127.0.0.1" 1 1 1 ⟨[], []⟩).2.emit (Event.println "Playground Bootstrapping..."))).heap 0) "" =
      ["tiup", "run", "pd", "--", "--name=pd-0", "--data-dir=/d/pd-0/data",
        "--peer-urls=http://127.0.0.1:2381", "--advertise-peer-urls=http://127.0.0.1:2381",
        "--client-urls=http://127.0.0.1:2379", "--advertise-client-urls=http://127.0.0.1:2379",
        "--log-file=/d/pd-0/pd.log", "--initial-cluster=pd-0=http://127.0.0.1:2381"] ∧
    PDInstance.startArgs demoWorld (buildTopology demoWorld "/d" "127.0.0.1" 1 1 1 ⟨[], []⟩).2.heap
        (deref (buildTopology demoWorld "/d" "127.0.0.1" 1 1 1 ⟨[], []⟩).2.heap 0) "" ≠
      PDInstance.baseArgs demoWorld
        (deref (buildTopology demoWorld "/d" "127.0.0.1" 1 1 1 ⟨[], []⟩).2.heap 0) "" :=
  ⟨((single_coordinator_initial_cluster demoWorld "/d" "127.0.0.1" "" 1 1 []).2.2.1 []).trans
      (by decide),
   (single_coordinator_initial_cluster demoWorld "/d" "127.0.0.1" "" 1 1 []).2.2.2.2.2⟩

/-! ## The host in the entries of `--initial-cluster` -/

theorem endpointEntry_eq_iff (inst pd : PDInstance) :
    PDInstance.endpointEntry inst pd = PDInstance.uid pd ++ "=" ++ PDInstance.peerURL pd ↔
      pd.host = inst.host := by
  have e : "=http://" = "=" ++ "http://" := by decide
  constructor
  · intro h
    have hd := congrArg String.data h
    simp only [PDInstance.endpointEntry, PDInstance.peerURL, e, String.data_append,
      List.append_assoc, List.append_cancel_left_eq] at hd
    have hd' : inst.host.data = pd.host.data := by
      have h2 : inst.host.data ++ (":".data ++ (toString pd.peerPort).data) =
          pd.host.data ++ (":".data ++ (toString pd.peerPort).data) := hd
      exact List.append_cancel_right h2
    exact (String.ext hd').symm
  · intro h
    simp only [PDInstance.endpointEntry, PDInstance.peerURL, e, h, String.append_assoc]

/-- C10: `PDInstance.Start` formats the entry of a join target `pd` with the
host of the launching instance `inst`; the flags `--name` and
`--advertise-peer-urls` of an instance carry its own `uid` and its own peer
URL; so the entry is `<uid of pd>=<peer URL pd advertises>` exactly when
`pd.host = inst.host`.  In the topology `bootCluster` builds all coordinators
have the host given, and, whatever instances `l` the launch loop has started
before, entry `k` of the list of every coordinator `i` is
`<uid of k>=<peer URL k advertises>`. -/
theorem endpointEntry_host (w : World) (version : String) :
    (∀ inst pd : PDInstance, PDInstance.endpointEntry inst pd =
      "pd-" ++ toString pd.id ++ "=http://" ++ inst.host ++ ":" ++ toString pd.peerPort) ∧
    (∀ pd : PDInstance,
      (PDInstance.baseArgs w pd version)[4]? = some ("--name=" ++ PDInstance.uid pd) ∧
      (PDInstance.baseArgs w pd version)[7]? =
        some ("--advertise-peer-urls=" ++ PDInstance.peerURL pd) ∧
      PDInstance.peerURL pd = "http://" ++ pd.host ++ ":" ++ toString pd.peerPort) ∧
    (∀ inst pd : PDInstance,
      PDInstance.endpointEntry inst pd = PDInstance.uid pd ++ "=" ++ PDInstance.peerURL pd ↔
        pd.host = inst.host) ∧
    (∀ (dataDir host : String) (pdNum tikvNum tidbNum : Int) (tr : List Event) (i k : Nat)
      (l : List Instance), i < pdNum.toNat → k < pdNum.toNat →
      let r := buildTopology w dataDir host pdNum tikvNum tidbNum ⟨[], tr⟩
      let heap := (launched w bootCtx version l (r.2.emit (Event.println "Playground Bootstrapping..."))).heap
      (deref heap k).host = host ∧ (deref heap i).host = host ∧
      (PDInstance.endpointList heap (deref heap i))[k]? =
        some (PDInstance.uid (deref heap k) ++ "=" ++ PDInstance.peerURL (deref heap k))) := by
  refine ⟨fun _ _ => rfl, fun _ => ⟨rfl, rfl, rfl⟩, endpointEntry_eq_iff, ?_⟩
  intro dataDir host pdNum tikvNum tidbNum tr i k l hi hk r heap
  obtain ⟨_, _, h3, _⟩ := buildTopology_spec w dataDir host pdNum tikvNum tidbNum tr
  have hst : ∀ q, PDInstance.static (deref heap q) = PDInstance.static (deref r.2.heap q) :=
    fun q => launched_static w bootCtx version l (r.2.emit (Event.println "Playground Bootstrapping...")) q
  have hhost : ∀ q, (deref heap q).host = (deref r.2.heap q).host := fun q => by
    have h := congrArg PDInstance.host (hst q)
    exact h
  have si := startArgs_static w version heap r.2.heap hst i
  have sk := startArgs_static w version heap r.2.heap hst k
  have hhk := (h3 k hk).2.1
  have hhi := (h3 i hi).2.1
  refine ⟨(hhost k).trans hhk, (hhost i).trans hhi, ?_⟩
  have hentry := (endpointEntry_eq_iff (deref r.2.heap i) (deref r.2.heap k)).mpr
    (hhk.trans hhi.symm)
  rw [si.2.2.1, sk.2.2.2.1, sk.2.2.2.2]
  simp only [PDInstance.endpointList, (h3 i hi).2.2, List.getElem?_map, List.getElem?_range hk,
    Option.map_some']
  rw [hentry]

/-- C10, for entry 0 of the list of coordinator 1 of 2, after coordinator 0
has been started. -/
theorem endpointEntry_host_witness :
    (1 < (2 : Int).toNat ∧ 0 < (2 : Int).toNat) ∧
    (let r := buildTopology demoWorld "/d" "127.0.0.1" 2 1 1 ⟨[], []⟩;
      let heap := (launched demoWorld bootCtx "" [Instance.pd 0] (r.2.emit (Event.println "Playground Bootstrapping..."))).heap;
      (deref heap 0).host = "127.0.0.1" ∧ (deref heap 1).host = "127.0.0.1" ∧
      (PDInstance.endpointList heap (deref heap 1))[0]? =
        some (PDInstance.uid (deref heap 0) ++ "=" ++ PDInstance.peerURL (deref heap 0))) :=
  ⟨by decide,
   (endpointEntry_host demoWorld "").2.2.2 "/d" "127.0.0.1" 2 1 1 [] 1 0 [Instance.pd 0]
     (by decide) (by decide)⟩

/-! ## Missing environment variables -/

theorem installIfMissing_events (w : World) (profile component version : String) (st : State) :
    ∃ es, (installIfMissing w profile component version st).2 = ⟨st.heap, st.trace ++ es⟩ ∧
      ∀ e ∈ es, Event.isInstall e := by
  rcases hl : w.InstalledVersions st.clock profile component with err | versions
  · simp only [installIfMissing, hl]
    exact ⟨[_], rfl, by simp [Event.isInstall]⟩
  · have hc := installIfMissing_cases w profile component version st versions hl
    by_cases h : versions ≠ [] ∧ (version = "" ∨ version ∈ versions)
    · rw [hc.1 h]
      exact ⟨[_], rfl, by simp [Event.isInstall]⟩
    · rw [hc.2.1 h]
      refine ⟨[Event.installedVersions profile component, Event.run ["tiup", "install",
        if version = "" then component else component ++ ":" ++ version]], ?_, ?_⟩
      · simp [State.emit]
      · simp [Event.isInstall]

theorem installAll_events (w : World) (profile version : String) (comps : List String)
    (st : State) :
    ∃ es, (installAll w profile version comps st).2 = ⟨st.heap, st.trace ++ es⟩ ∧
      ∀ e ∈ es, Event.isInstall e := by
  induction comps generalizing st with
  | nil => exact ⟨[], by simp [installAll], by simp⟩
  | cons comp rest ih =>
    obtain ⟨es1, h1, h2⟩ := installIfMissing_events w profile comp version st
    simp only [installAll]
    split
    · rename_i err st1 heq
      rw [heq] at h1
      exact ⟨es1, h1, h2⟩
    · rename_i st1 heq
      rw [heq] at h1
      obtain ⟨es2, h3, h4⟩ := ih st1
      simp only at h1
      refine ⟨es1 ++ es2, ?_, ?_⟩
      · rw [h3, h1, List.append_assoc]
      · intro e he
        rcases List.mem_append.mp he with he | he
        · exact h2 e he
        · exact h4 e he

/-- C8, refuted: with the profile-root variable set, nothing installed and
the instance-data-root variable not set, `bootCluster` returns the error
about the variable after it has executed the install command. -/
theorem install_runs_before_data_dir_check :
    noDataDirWorld.getenv noDataDirWorld.EnvNameInstanceDataDir = "" ∧
    (bootCluster noDataDirWorld "" 1 1 1 "127.0.0.1").1 =
      Outcome.ret (some (Err.errorf
        "cannot read environment variable TIUP_INSTANCE_DATA_DIR")) ∧
    (bootCluster noDataDirWorld "" 1 1 1 "127.0.0.1").2.trace =
      [Event.getenv "TIUP_HOME",
       Event.installedVersions "/h" "pd", Event.run ["tiup", "install", "pd"],
       Event.installedVersions "/h" "tikv", Event.run ["tiup", "install", "tikv"],
       Event.installedVersions "/h" "tidb", Event.run ["tiup", "install", "tidb"],
       Event.getenv "TIUP_INSTANCE_DATA_DIR"] ∧
    Event.isChildProcess (Event.run ["tiup", "install", "pd"]) = true := by
  decide

/-- C8, amended: if the profile-root variable is empty, `bootCluster` returns
an error and no child process of any kind, the install command included, has
been executed, nor any node built.  If the instance-data-root variable is
empty, `bootCluster` returns an error before any instance is constructed, any
directory created or any node process started; the only child processes that
may have been executed by then are install commands `tiup install <spec>`. -/
theorem bootCluster_missing_env (w : World) (version host : String)
    (pdNum tidbNum tikvNum : Int) :
    (w.getenv w.EnvNameHome = "" →
      (∃ err, (bootCluster w version pdNum tidbNum tikvNum host).1 = Outcome.ret (some err)) ∧
      ∀ e ∈ (bootCluster w version pdNum tidbNum tikvNum host).2.trace,
        Event.isChildProcess e = false ∧ Event.isNodeEffect e = false) ∧
    (w.getenv w.EnvNameInstanceDataDir = "" →
      (∃ err, (bootCluster w version pdNum tidbNum tikvNum host).1 = Outcome.ret (some err)) ∧
      ∀ e ∈ (bootCluster w version pdNum tidbNum tikvNum host).2.trace,
        Event.isNodeEffect e = false ∧
        (Event.isChildProcess e = true → ∃ spec, e = Event.run ["tiup", "install", spec])) := by
  constructor
  · intro hh
    simp only [bootCluster]
    split_ifs
    · exact ⟨⟨_, rfl⟩, by simp⟩
    · exact ⟨⟨_, rfl⟩, by simp [State.emit, Event.isChildProcess, Event.isNodeEffect]⟩
  · intro hd
    have hins : ∀ e, Event.isInstall e → Event.isNodeEffect e = false ∧
        (Event.isChildProcess e = true → ∃ spec, e = Event.run ["tiup", "install", spec]) := by
      rintro e (⟨p, c, rfl⟩ | ⟨spec, rfl⟩)
      · simp [Event.isNodeEffect, Event.isChildProcess]
      · exact ⟨rfl, fun _ => ⟨spec, rfl⟩⟩
    simp only [bootCluster]
    split_ifs
    · exact ⟨⟨_, rfl⟩, by simp⟩
    · exact ⟨⟨_, rfl⟩, by simp [State.emit, Event.isChildProcess, Event.isNodeEffect]⟩
    · obtain ⟨es, h1, h2⟩ := installAll_events w (w.getenv w.EnvNameHome) version
        ["pd", "tikv", "tidb"] (State.emit { heap := [], trace := [] } (.getenv w.EnvNameHome))
      split
      · rename_i err st2 heq
        rw [heq] at h1
        simp only at h1
        refine ⟨⟨_, rfl⟩, ?_⟩
        intro e he
        simp only [h1, State.emit, List.nil_append, List.singleton_append, List.mem_cons] at he
        rcases he with rfl | he
        · simp [Event.isChildProcess, Event.isNodeEffect]
        · exact hins e (h2 e he)
      · rename_i st2 heq
        rw [heq] at h1
        simp only at h1
        refine ⟨⟨_, rfl⟩, ?_⟩
        intro e he
        simp only [h1, State.emit, List.nil_append, List.singleton_append, List.mem_cons,
          List.mem_append, List.mem_singleton, List.not_mem_nil, or_false] at he
        rcases he with (rfl | he) | rfl
        · simp [Event.isChildProcess, Event.isNodeEffect]
        · exact hins e (h2 e he)
        · simp [Event.isChildProcess, Event.isNodeEffect]

/-- C8, amended, in a world without the instance-data-root variable. -/
theorem bootCluster_missing_env_witness :
    noDataDirWorld.getenv noDataDirWorld.EnvNameInstanceDataDir = "" ∧
    ((∃ err, (bootCluster noDataDirWorld "" 1 1 1 "127.0.0.1").1 = Outcome.ret (some err)) ∧
      ∀ e ∈ (bootCluster noDataDirWorld "" 1 1 1 "127.0.0.1").2.trace,
        Event.isNodeEffect e = false ∧
        (Event.isChildProcess e = true → ∃ spec, e = Event.run ["tiup", "install", spec])) :=
  ⟨by decide, (bootCluster_missing_env noDataDirWorld "" "127.0.0.1" 1 1 1).2 (by decide)⟩

/-! ## A failing `Start` -/

theorem Instance.Start_events (w : World) (ctx : Ctx) (version : String) (inst : Instance)
    (st : State) :
    ∃ es, (Instance.Start w ctx version inst st).2.trace = st.trace ++ es ∧
      startCalls es = [inst] ∧
      ∀ e ∈ es, Event.isLaunch e = true ∧ Event.isAfterLaunch e = false ∧
        ∀ cmd, e = Event.cmdStart cmd → cmd.ctx = ctx := by
  cases inst with
  | pd p =>
    simp only [Instance.Start, PDInstance.Start]
    split
    · refine ⟨[Event.startCall (Instance.pd p), Event.mkdirAll (deref st.heap p).dir],
        ?_, ?_, ?_⟩
      · simp [State.emit]
      · simp [startCalls]
      · simp [Event.isLaunch, Event.isAfterLaunch]
    · refine ⟨[Event.startCall (Instance.pd p), Event.mkdirAll (deref st.heap p).dir,
        Event.cmdStart
          { args := PDInstance.startArgs w st.heap (deref st.heap p) version,
            env := w.EnvNameInstanceDataDir ++ "=" ++ (deref st.heap p).dir,
            ctx := ctx }], ?_, ?_, ?_⟩
      · simp [State.emit]
      · simp [startCalls]
      · intro e he
        simp only [List.mem_cons, List.mem_singleton, List.not_mem_nil, or_false] at he
        rcases he with rfl | rfl | rfl
        · simp [Event.isLaunch, Event.isAfterLaunch]
        · simp [Event.isLaunch, Event.isAfterLaunch]
        · refine ⟨rfl, rfl, ?_⟩
          intro cmd hcmd
          rw [← Event.cmdStart.inj hcmd]
  | tikv kv =>
    refine ⟨[Event.startCall (Instance.tikv kv), Event.launch ctx (Instance.tikv kv)],
      ?_, ?_, ?_⟩
    · simp [Instance.Start, launchInstance, State.emit]
    · simp [startCalls]
    · simp [Event.isLaunch, Event.isAfterLaunch]
  | tidb db =>
    refine ⟨[Event.startCall (Instance.tidb db), Event.launch ctx (Instance.tidb db)],
      ?_, ?_, ?_⟩
    · simp [Instance.Start, launchInstance, State.emit]
    · simp [startCalls]
    · simp [Event.isLaunch, Event.isAfterLaunch]

theorem launched_events (w : World) (ctx : Ctx) (version : String) (l : List Instance)
    (st : State) :
    ∃ es, (launched w ctx version l st).trace = st.trace ++ es ∧
      startCalls es = l ∧
      ∀ e ∈ es, Event.isLaunch e = true ∧ Event.isAfterLaunch e = false ∧
        ∀ cmd, e = Event.cmdStart cmd → cmd.ctx = ctx := by
  induction l generalizing st with
  | nil => exact ⟨[], by simp [launched], rfl, by simp⟩
  | cons inst rest ih =>
    obtain ⟨es1, h1, h2, h3⟩ := Instance.Start_events w ctx version inst st
    obtain ⟨es2, h4, h5, h6⟩ := ih (Instance.Start w ctx version inst st).2
    refine ⟨es1 ++ es2, ?_, ?_, ?_⟩
    · simp only [launched]
      rw [h4, h1, List.append_assoc]
    · simp only [startCalls, List.filterMap_append] at h2 h5 ⊢
      rw [h2, h5]
      rfl
    · intro e he
      rcases List.mem_append.mp he with he | he
      · exact h3 e he
      · exact h6 e he

theorem launched_append (w : World) (ctx : Ctx) (version : String) (l1 l2 : List Instance) (st : State) :
    launched w ctx version (l1 ++ l2) st = launched w ctx version l2 (launched w ctx version l1 st) := by
  induction l1 generalizing st with
  | nil => rfl
  | cons inst rest ih =>
    rw [List.cons_append]
    simp only [launched]
    exact ih _

/-- The launch loop stops at the first `Start` that fails: it returns the
error of that call and the state that call has left. -/
theorem startAll_first_failure (w : World) (ctx : Ctx) (version : String) (l : List Instance) :
    ∀ (st : State) (k : Nat) (e : Err),
    (∀ j, j < k → startResult w ctx version l st j = some none) →
    startResult w ctx version l st k = some (some e) →
    startAll w ctx version l st = (some e, launched w ctx version (l.take (k + 1)) st) := by
  induction l with
  | nil =>
    intro st k e _ hk
    simp [startResult] at hk
  | cons a rest ih =>
    intro st k e hpre hk
    cases k with
    | zero =>
      simp only [startResult, List.getElem?_cons_zero, Option.map_some', List.take_zero, launched,
        Option.some.injEq] at hk
      simp only [startAll, List.take_succ_cons, List.take_zero, launched]
      rcases hr : Instance.Start w ctx version a st with ⟨r, st1⟩
      rw [hr] at hk
      simp only at hk
      subst hk
      rfl
    | succ k =>
      have h0 := hpre 0 (Nat.succ_pos k)
      simp only [startResult, List.getElem?_cons_zero, Option.map_some', List.take_zero, launched,
        Option.some.injEq] at h0
      simp only [startAll, List.take_succ_cons, launched]
      rcases hr : Instance.Start w ctx version a st with ⟨r, st1⟩
      rw [hr] at h0
      simp only at h0
      subst h0
      simp only
      apply ih st1 k e
      · intro j hj
        have := hpre (j + 1) (by omega)
        simpa only [startResult, List.getElem?_cons_succ, List.take_succ_cons, launched, hr]
          using this
      · simpa only [startResult, List.getElem?_cons_succ, List.take_succ_cons, launched, hr]
          using hk

theorem foldl_events {α : Type} (f : Topology × State → α → Topology × State)
    (hf : ∀ acc a, ∃ es, (f acc a).2.trace = acc.2.trace ++ es ∧
      ∀ e ∈ es, Event.isSetup e = true)
    (l : List α) (acc : Topology × State) :
    ∃ es, (l.foldl f acc).2.trace = acc.2.trace ++ es ∧ ∀ e ∈ es, Event.isSetup e = true := by
  induction l generalizing acc with
  | nil => exact ⟨[], by simp, by simp⟩
  | cons a rest ih =>
    obtain ⟨es1, h1, h2⟩ := hf acc a
    obtain ⟨es2, h3, h4⟩ := ih (f acc a)
    refine ⟨es1 ++ es2, by simp only [List.foldl_cons]; rw [h3, h1, List.append_assoc], ?_⟩
    intro e he
    rcases List.mem_append.mp he with he | he
    · exact h2 e he
    · exact h4 e he

theorem buildTopology_events (w : World) (dataDir host : String) (pdNum tikvNum tidbNum : Int)
    (st : State) :
    ∃ es, (buildTopology w dataDir host pdNum tikvNum tidbNum st).2.trace = st.trace ++ es ∧
      ∀ e ∈ es, Event.isSetup e = true := by
  obtain ⟨es1, h1, h2⟩ := foldl_events (pdStep w dataDir host)
    (fun acc a => ⟨[Event.freePort host 2379, Event.freePort host 2380,
        Event.construct "pd" (a : Int)],
      by simp [pdStep, NewPDInstance, State.emit], by simp [Event.isSetup]⟩)
    (List.range pdNum.toNat) (({ all := [], pds := [], kvs := [], dbs := [] } : Topology), st)
  obtain ⟨es2, h3, h4⟩ := foldl_events (kvStep w dataDir host)
    (fun acc a => ⟨[Event.construct "tikv" (a : Int)],
      by simp [kvStep, NewTiKVInstance, State.emit], by simp [Event.isSetup]⟩)
    (List.range tikvNum.toNat)
    (((List.range pdNum.toNat).foldl (pdStep w dataDir host)
      (({ all := [], pds := [], kvs := [], dbs := [] } : Topology), st)).1,
     { ((List.range pdNum.toNat).foldl (pdStep w dataDir host)
      (({ all := [], pds := [], kvs := [], dbs := [] } : Topology), st)).2 with
       heap := joinAll ((List.range pdNum.toNat).foldl (pdStep w dataDir host)
      (({ all := [], pds := [], kvs := [], dbs := [] } : Topology), st)).1.pds
        ((List.range pdNum.toNat).foldl (pdStep w dataDir host)
      (({ all := [], pds := [], kvs := [], dbs := [] } : Topology), st)).1.pds
        ((List.range pdNum.toNat).foldl (pdStep w dataDir host)
          (({ all := [], pds := [], kvs := [], dbs := [] } : Topology), st)).2.heap })
  obtain ⟨es3, h5, h6⟩ := foldl_events (dbStep w dataDir host)
    (fun acc a => ⟨[Event.construct "tidb" (a : Int)],
      by simp [dbStep, NewTiDBInstance, State.emit], by simp [Event.isSetup]⟩)
    (List.range tidbNum.toNat)
    ((List.range tikvNum.toNat).foldl (kvStep w dataDir host)
    (((List.range pdNum.toNat).foldl (pdStep w dataDir host)
      (({ all := [], pds := [], kvs := [], dbs := [] } : Topology), st)).1,
     { ((List.range pdNum.toNat).foldl (pdStep w dataDir host)
      (({ all := [], pds := [], kvs := [], dbs := [] } : Topology), st)).2 with
       heap := joinAll ((List.range pdNum.toNat).foldl (pdStep w dataDir host)
      (({ all := [], pds := [], kvs := [], dbs := [] } : Topology), st)).1.pds
        ((List.range pdNum.toNat).foldl (pdStep w dataDir host)
      (({ all := [], pds := [], kvs := [], dbs := [] } : Topology), st)).1.pds
        ((List.range pdNum.toNat).foldl (pdStep w dataDir host)
          (({ all := [], pds := [], kvs := [], dbs := [] } : Topology), st)).2.heap }))
  refine ⟨es1 ++ es2 ++ es3, ?_, ?_⟩
  · simp only [buildTopology]
    rw [h5, h3]
    simp only [h1, List.append_assoc]
  · intro e he
    rcases List.mem_append.mp he with he | he
    · rcases List.mem_append.mp he with he | he
      · exact h2 e he
      · exact h4 e he
    · exact h6 e he

theorem startCalls_setup (es : List Event) (h : ∀ e ∈ es, Event.isSetup e = true) :
    startCalls es = [] := by
  induction es with
  | nil => rfl
  | cons e rest ih =>
    have he := h e (List.mem_cons_self e rest)
    have hr := ih (fun x hx => h x (List.mem_cons_of_mem e hx))
    simp only [startCalls] at hr ⊢
    cases e <;> simp_all [Event.isSetup]

theorem isSetup_not_afterLaunch (e : Event) (h : Event.isSetup e = true) :
    Event.isAfterLaunch e = false := by
  cases e <;> simp_all [Event.isSetup, Event.isAfterLaunch]

theorem isInstall_isSetup (e : Event) (h : Event.isInstall e) : Event.isSetup e = true := by
  rcases h with ⟨p, c, rfl⟩ | ⟨spec, rfl⟩ <;> rfl

theorem mem_startedCmds (es : List Event) (cmd : Cmd) :
    cmd ∈ startedCmds es ↔ Event.cmdStart cmd ∈ es := by
  induction es with
  | nil => simp [startedCmds]
  | cons e rest ih =>
    simp only [startedCmds] at ih
    cases e <;> simp_all [startedCmds, List.filterMap_cons]

/-- When the counts are valid, both variables are set, the installs succeed
and no call of `make` panics, `bootCluster` is the launch and what follows, on
the topology built from the empty heap, and then the deferred `cancel()`. -/
theorem bootCluster_reaches_launch (w : World) (version host : String)
    (pdNum tidbNum tikvNum : Int) (st2 : State)
    (hc : 1 ≤ pdNum ∧ 1 ≤ tidbNum ∧ 1 ≤ tikvNum)
    (hh : w.getenv w.EnvNameHome ≠ "")
    (hi : installAll w (w.getenv w.EnvNameHome) version ["pd", "tikv", "tidb"]
      ⟨[], [Event.getenv w.EnvNameHome]⟩ = (none, st2))
    (hd : w.getenv w.EnvNameInstanceDataDir ≠ "")
    (hm : makeSlices w pdNum tikvNum tidbNum = true) :
    (∀ e ∈ st2.trace, Event.isSetup e = true) ∧
    bootCluster w version pdNum tidbNum tikvNum host =
      ((runCluster w bootCtx version
        (buildTopology w (w.getenv w.EnvNameInstanceDataDir) host pdNum tikvNum tidbNum
          ⟨[], st2.trace ++ [Event.getenv w.EnvNameInstanceDataDir]⟩).1
        (buildTopology w (w.getenv w.EnvNameInstanceDataDir) host pdNum tikvNum tidbNum
          ⟨[], st2.trace ++ [Event.getenv w.EnvNameInstanceDataDir]⟩).2).1,
       (runCluster w bootCtx version
        (buildTopology w (w.getenv w.EnvNameInstanceDataDir) host pdNum tikvNum tidbNum
          ⟨[], st2.trace ++ [Event.getenv w.EnvNameInstanceDataDir]⟩).1
        (buildTopology w (w.getenv w.EnvNameInstanceDataDir) host pdNum tikvNum tidbNum
          ⟨[], st2.trace ++ [Event.getenv w.EnvNameInstanceDataDir]⟩).2).2.emit
          (Event.cancel bootCtx)) := by
  obtain ⟨es, h1, h2⟩ := installAll_events w (w.getenv w.EnvNameHome) version
    ["pd", "tikv", "tidb"] ⟨[], [Event.getenv w.EnvNameHome]⟩
  rw [hi] at h1
  simp only at h1
  have hcount : ¬ (pdNum < 1 ∨ tidbNum < 1 ∨ tikvNum < 1) := by omega
  constructor
  · intro e he
    rw [h1] at he
    simp only [List.singleton_append, List.mem_cons] at he
    rcases he with rfl | he
    · rfl
    · exact isInstall_isSetup e (h2 e he)
  · have hst : (State.emit { heap := [], trace := [] } (Event.getenv w.EnvNameHome)) =
        ⟨[], [Event.getenv w.EnvNameHome]⟩ := rfl
    simp only [bootCluster, if_neg hcount, if_neg hh, if_neg hd, hst, hi]
    have hs2 : st2.emit (Event.getenv w.EnvNameInstanceDataDir) =
        ⟨[], st2.trace ++ [Event.getenv w.EnvNameInstanceDataDir]⟩ := by
      rw [h1]
      rfl
    rw [hs2]
    simp only [constructTopology, hm, if_true]

/-- The instances of the topology are pairwise distinct. -/
theorem buildTopology_all_nodup (w : World) (dataDir host : String)
    (pdNum tikvNum tidbNum : Int) (tr : List Event) :
    (buildTopology w dataDir host pdNum tikvNum tidbNum ⟨[], tr⟩).1.all.Nodup := by
  obtain ⟨h1, _, _, h4, _, h6, _, h8⟩ :=
    buildTopology_spec w dataDir host pdNum tikvNum tidbNum tr
  have hinj : Function.Injective (fun i : Nat => (i : Int)) := fun a b h => by
    simpa using h
  have nkv : (buildTopology w dataDir host pdNum tikvNum tidbNum ⟨[], tr⟩).1.kvs.Nodup := by
    apply List.Nodup.of_map (fun kv => kv.id)
    rw [h4]
    exact (List.nodup_range _).map hinj
  have ndb : (buildTopology w dataDir host pdNum tikvNum tidbNum ⟨[], tr⟩).1.dbs.Nodup := by
    apply List.Nodup.of_map (fun db => db.id)
    rw [h6]
    exact (List.nodup_range _).map hinj
  rw [h8, h1]
  refine List.Nodup.append (List.Nodup.append ?_ ?_ ?_) ?_ ?_
  · exact (List.nodup_range _).map (fun a b h => by simpa using h)
  · exact nkv.map (fun a b h => by simpa using h)
  · intro x hx hy
    obtain ⟨_, _, rfl⟩ := List.mem_map.mp hx
    simp at hy
  · exact ndb.map (fun a b h => by simpa using h)
  · intro x hx hy
    obtain ⟨_, _, rfl⟩ := List.mem_map.mp hy
    simp at hx

/-- C9, refuted: with one instance of each role where the start of the
storage node fails, the run of `bootCluster` ends with the start of the
coordinator process on the context of `bootCluster`, the failed start of the
storage node and then the deferred `cancel()` of that context, which kills
the coordinator already started. -/
theorem cancel_stops_started_coordinator :
    (bootCluster failingStorageWorld "" 1 1 1 "127.0.0.1").1 =
      Outcome.ret (some (Err.external 7)) ∧
    (bootCluster failingStorageWorld "" 1 1 1 "127.0.0.1").2.trace.drop 11 =
      [Event.startCall (Instance.pd 0),
       Event.mkdirAll "/d/pd-0",
       Event.cmdStart
         ⟨["tiup", "run", "pd", "--", "--name=pd-0", "--data-dir=/d/pd-0/data",
           "--peer-urls=http://127.0.0.1:2386", "--advertise-peer-urls=http://127.0.0.1:2386",
           "--client-urls=http://127.0.0.1:2384",
           "--advertise-client-urls=http://127.0.0.1:2384",
           "--log-file=/d/pd-0/pd.log", "--initial-cluster=pd-0=http://127.0.0.1:2386"],
          "TIUP_INSTANCE_DATA_DIR=/d/pd-0", bootCtx⟩,
       Event.startCall (Instance.tikv ⟨0, "/d/tikv-0", "127.0.0.1", [0]⟩),
       Event.launch bootCtx (Instance.tikv ⟨0, "/d/tikv-0", "127.0.0.1", [0]⟩),
       Event.cancel bootCtx] := by
  decide

/-- C9, amended: let the counts be valid, both variables set, the installs
successful and the calls of `make` without panic, let `b` be the topology
built and `st0` the state in which the launch loop begins.  The list `all` is
the coordinators, then the storage instances, then the compute instances,
each by ascending ordinal, pairwise distinct.  If `Start` returns nil on the
instances number 0, ..., k-1 of `all` and returns the error `e` on instance
number `k`, each call made in the state the calls before it have left, then
`bootCluster` returns exactly `e`; the calls of `Start` in the whole run are,
in order, one call on each of the instances number 0, ..., k of `all` and no
other call; the run contains no readiness probe, no write of the file "dsn",
no signal handler and no wait on any instance.  The last event of the run,
after these calls of `Start`, is the deferred `cancel()` of the context of
`bootCluster`, the only cancellation of the run; every process the run has
started with `cmd.Start()` was created on that context, so the cancellation
kills the coordinators already started. -/
theorem bootCluster_start_failure (w : World) (version host : String)
    (pdNum tidbNum tikvNum : Int) (st2 : State) (b : Topology × State) (st0 : State)
    (k : Nat) (e : Err)
    (hc : 1 ≤ pdNum ∧ 1 ≤ tidbNum ∧ 1 ≤ tikvNum)
    (hh : w.getenv w.EnvNameHome ≠ "")
    (hi : installAll w (w.getenv w.EnvNameHome) version ["pd", "tikv", "tidb"]
      ⟨[], [Event.getenv w.EnvNameHome]⟩ = (none, st2))
    (hd : w.getenv w.EnvNameInstanceDataDir ≠ "")
    (hm : makeSlices w pdNum tikvNum tidbNum = true)
    (hb : b = buildTopology w (w.getenv w.EnvNameInstanceDataDir) host pdNum tikvNum tidbNum
      ⟨[], st2.trace ++ [Event.getenv w.EnvNameInstanceDataDir]⟩)
    (hst : st0 = b.2.emit (Event.println "Playground Bootstrapping..."))
    (hpre : ∀ j, j < k → startResult w bootCtx version b.1.all st0 j = some none)
    (hk : startResult w bootCtx version b.1.all st0 k = some (some e)) :
    (b.1.all = b.1.pds.map Instance.pd ++ b.1.kvs.map Instance.tikv ++
        b.1.dbs.map Instance.tidb ∧
      b.1.pds.map (fun p => (deref b.2.heap p).id) =
        (List.range pdNum.toNat).map (fun i : Nat => (i : Int)) ∧
      b.1.kvs.map (fun kv => kv.id) = (List.range tikvNum.toNat).map (fun i : Nat => (i : Int)) ∧
      b.1.dbs.map (fun db => db.id) = (List.range tidbNum.toNat).map (fun i : Nat => (i : Int)) ∧
      b.1.all.Nodup) ∧
    (bootCluster w version pdNum tidbNum tikvNum host).1 = Outcome.ret (some e) ∧
    startCalls (bootCluster w version pdNum tidbNum tikvNum host).2.trace =
      b.1.all.take (k + 1) ∧
    (∀ ev ∈ (bootCluster w version pdNum tidbNum tikvNum host).2.trace,
      Event.isAfterLaunch ev = false) ∧
    (bootCluster w version pdNum tidbNum tikvNum host).2.trace =
      (launched w bootCtx version (b.1.all.take (k + 1)) st0).trace ++
        [Event.cancel bootCtx] ∧
    (∀ c, Event.cancel c ∉ (launched w bootCtx version (b.1.all.take (k + 1)) st0).trace) ∧
    (∀ cmd ∈ startedCmds (bootCluster w version pdNum tidbNum tikvNum host).2.trace,
      cmd.ctx = bootCtx) := by
  obtain ⟨hs2, hboot⟩ := bootCluster_reaches_launch w version host pdNum tidbNum tikvNum st2
    hc hh hi hd hm
  rw [← hb] at hboot
  obtain ⟨t1, _, t3, t4, _, t6, _, t8⟩ := buildTopology_spec w
    (w.getenv w.EnvNameInstanceDataDir) host pdNum tikvNum tidbNum
    (st2.trace ++ [Event.getenv w.EnvNameInstanceDataDir])
  have hnd := buildTopology_all_nodup w (w.getenv w.EnvNameInstanceDataDir) host pdNum tikvNum
    tidbNum (st2.trace ++ [Event.getenv w.EnvNameInstanceDataDir])
  obtain ⟨esb, hb1, hb2⟩ := buildTopology_events w (w.getenv w.EnvNameInstanceDataDir) host
    pdNum tikvNum tidbNum ⟨[], st2.trace ++ [Event.getenv w.EnvNameInstanceDataDir]⟩
  rw [← hb] at t1 t3 t4 t6 t8 hnd hb1
  have hfail := startAll_first_failure w bootCtx version b.1.all st0 k e hpre hk
  obtain ⟨esl, hl1, hl2, hl3⟩ := launched_events w bootCtx version (b.1.all.take (k + 1)) st0
  have hrun : runCluster w bootCtx version b.1 b.2 =
      (Outcome.ret (some e), launched w bootCtx version (b.1.all.take (k + 1)) st0) := by
    simp only [runCluster, ← hst, hfail]
  have hsetup : ∀ ev ∈ st0.trace, Event.isSetup ev = true := by
    intro ev hev
    rw [hst] at hev
    simp only [State.emit, hb1, List.mem_append, List.mem_singleton] at hev
    rcases hev with ((hev | rfl) | hev) | rfl
    · exact hs2 ev hev
    · rfl
    · exact hb2 ev hev
    · rfl
  have htrace : (bootCluster w version pdNum tidbNum tikvNum host).2.trace =
      (launched w bootCtx version (b.1.all.take (k + 1)) st0).trace ++
        [Event.cancel bootCtx] := by
    rw [hboot, hrun]
    rfl
  refine ⟨⟨t8, ?_, t4, t6, hnd⟩, ?_, ?_, ?_, htrace, ?_, ?_⟩
  · rw [t1]
    apply List.map_congr_left
    intro p hp
    exact (t3 p (List.mem_range.mp hp)).1
  · rw [hboot, hrun]
  · rw [htrace, hl1]
    have h0 := startCalls_setup st0.trace hsetup
    simp only [startCalls, List.filterMap_append] at h0 hl2 ⊢
    rw [h0, hl2, List.nil_append]
    simp
  · intro ev hev
    rw [htrace, hl1] at hev
    simp only [List.mem_append, List.mem_singleton] at hev
    rcases hev with (hev | hev) | rfl
    · exact isSetup_not_afterLaunch ev (hsetup ev hev)
    · exact (hl3 ev hev).2.1
    · rfl
  · intro c hmem
    rw [hl1] at hmem
    rcases List.mem_append.mp hmem with hmem | hmem
    · have := hsetup _ hmem
      simp [Event.isSetup] at this
    · have := (hl3 _ hmem).1
      simp [Event.isLaunch] at this
  · intro cmd hcmd
    rw [mem_startedCmds, htrace, hl1] at hcmd
    simp only [List.mem_append, List.mem_singleton] at hcmd
    rcases hcmd with (hcmd | hcmd) | hcmd
    · have := hsetup _ hcmd
      simp [Event.isSetup] at this
    · exact (hl3 _ hcmd).2.2 cmd rfl
    · exact absurd hcmd (by simp)

/-- C9, amended, for one instance of each role where the start of the storage
node fails: `Start` is called on the coordinator and on the storage node, not
on the compute node, the error of the storage node is returned, and the run
ends with the cancellation. -/
theorem bootCluster_start_failure_witness :
    makeSlices failingStorageWorld 1 1 1 = true ∧
    (∀ j, j < 1 → startResult failingStorageWorld bootCtx "" failingStorageStart.1.all
      (failingStorageStart.2.emit (Event.println "Playground Bootstrapping...")) j = some none) ∧
    startResult failingStorageWorld bootCtx "" failingStorageStart.1.all
      (failingStorageStart.2.emit (Event.println "Playground Bootstrapping...")) 1 = some (some (Err.external 7)) ∧
    (bootCluster failingStorageWorld "" 1 1 1 "127.0.0.1").1 =
      Outcome.ret (some (Err.external 7)) ∧
    startCalls (bootCluster failingStorageWorld "" 1 1 1 "127.0.0.1").2.trace =
      [Instance.pd 0, Instance.tikv ⟨0, "/d/tikv-0", "127.0.0.1", [0]⟩] ∧
    (bootCluster failingStorageWorld "" 1 1 1 "127.0.0.1").2.trace =
      (launched failingStorageWorld bootCtx "" (failingStorageStart.1.all.take (1 + 1))
        (failingStorageStart.2.emit (Event.println "Playground Bootstrapping..."))).trace ++ [Event.cancel bootCtx] :=
  ⟨by decide, by decide, by decide,
   (bootCluster_start_failure failingStorageWorld "" "127.0.0.1" 1 1 1
      ⟨[], [Event.getenv "TIUP_HOME", Event.installedVersions "/h" "pd",
        Event.installedVersions "/h" "tikv", Event.installedVersions "/h" "tidb"]⟩
      failingStorageStart (failingStorageStart.2.emit (Event.println "Playground Bootstrapping...")) 1
      (Err.external 7) (by decide) (by decide) (by decide) (by decide) (by decide) rfl rfl
      (by decide) (by decide)).2.1,
   (bootCluster_start_failure failingStorageWorld "" "127.0.0.1" 1 1 1
      ⟨[], [Event.getenv "TIUP_HOME", Event.installedVersions "/h" "pd",
        Event.installedVersions "/h" "tikv", Event.installedVersions "/h" "tidb"]⟩
      failingStorageStart (failingStorageStart.2.emit (Event.println "Playground Bootstrapping...")) 1
      (Err.external 7) (by decide) (by decide) (by decide) (by decide) (by decide) rfl rfl
      (by decide) (by decide)).2.2.1.trans (by decide),
   (bootCluster_start_failure failingStorageWorld "" "127.0.0.1" 1 1 1
      ⟨[], [Event.getenv "TIUP_HOME", Event.installedVersions "/h" "pd",
        Event.installedVersions "/h" "tikv", Event.installedVersions "/h" "tidb"]⟩
      failingStorageStart (failingStorageStart.2.emit (Event.println "Playground Bootstrapping...")) 1
      (Err.external 7) (by decide) (by decide) (by decide) (by decide) (by decide) rfl rfl
      (by decide) (by decide)).2.2.2.2.1⟩

end Playground
